import Mathlib

/-!
# Bank / teller simulation: a step model of `bank_simulation.cpp`

The program runs `NUM_TELLERS` teller threads and `NUM_CUSTOMERS` customer threads which
synchronise through three counting semaphores, a FIFO queue, a map from customer to teller
and one `CustomerEvents` object per customer.

The embedding is an interleaving step model.  A state holds every shared variable of the
program, the local variables the threads keep across blocking points, and one program counter
per thread.  One step is taken by one thread and covers one critical section (a block guarded
by a `lock_guard` or `unique_lock`), one call of a semaphore method, or one access to a shared
variable outside a lock, together with the logging around it; the source lines are given at
each case of `teller_thread` and `customer_thread`.  A thread whose blocking call cannot
return yet (a mutex that is held, a semaphore whose count is zero, a condition variable whose
flag is still false) does not move when it is scheduled.

The block of lines 111-118 is not one step: it writes `bank_open`, which the customers and
`main` read without `teller_ready_lock`, and it calls `print_log`, which can block.  The
mutex `teller_ready_lock` is therefore a variable of the state, and taking it, the increment,
the log line, the test with the assignment to `bank_open`, and the release are five steps.
Every other mutex is taken and released inside one step.

The map `customer_events` is written at line 239 and read at line 147 with no lock held, by up
to fifty customers and three tellers at once.  This is a data race on a `std::map`, and an
insertion that races can be lost.  The model takes the outcome of each insertion from the
environment (`Env.insert_lost`): every run in which all insertions succeed is a run of the
model, and so is every run in which some are lost.  A lookup that misses an entry because it
races with an insertion is the same event for the teller and falls under the same choice;
other effects of the race are not modelled.  A teller that looks up a lost entry gets a
null pointer at line 147 and dereferences it at line 151; the process then dies of a
segmentation fault, which the model records in `segfault`, and no thread takes a step any
more.

The field `trace` is a history variable: every step appends the lock, semaphore, queue, map and
handshake operations it performs, in program order.  No step reads it.

The model starts every thread at its first line from the beginning, whereas `main` starts the
customers after it has seen `bank_open`; every execution of the program is an execution of
the model.  The mutex `customers_served_lock` (line 78) is never used by the program and does
not occur.  The sleeps and the text of the log lines have no effect on the shared state and
are left out; only the `print_lock` taken by each `print_log` call is recorded.
-/

namespace Bank

/-! ## Constants (lines 23-24) -/

def NUM_TELLERS : Nat := 3

def NUM_CUSTOMERS : Nat := 50

/-! ## The type `int` -/

def INT_MAX : Int := 2147483647

def INT_MIN : Int := -2147483648

/-- The `int` that results from an operation whose exact value is `x`: `x` itself when it lies
between `INT_MIN` and `INT_MAX`, and `x` reduced modulo `2^32` into that range when it does
not (the value the compiled increment of an `int` leaves behind; the C++ standard leaves
signed overflow undefined). -/
def wrapInt (x : Int) : Int := (x - INT_MIN) % 4294967296 + INT_MIN

/-! ## Semaphore (lines 27-47) -/

/-- The class `Semaphore`: the only data member besides the mutex and the condition variable
is the counter, an `int`. -/
structure Semaphore where
  count : Int
deriving DecidableEq, Repr

/-- Constructor `Semaphore(int initial_count)`, line 34.  The parameter is an `int`. -/
def Semaphore.mk_initial (initial_count : Int) : Semaphore := { count := wrapInt initial_count }

/-- Method `acquire()`, lines 36-40: returns once `count > 0` and decrements; `none` stands for
a caller that is still blocked in `cv.wait`.  The decrement of a positive `int` does not
overflow. -/
def Semaphore.acquire (s : Semaphore) : Option Semaphore :=
  if s.count > 0 then some { count := s.count - 1 } else none

/-- Method `release()`, lines 42-46: `++count` on an `int`, and a notification.  There is no
test of the count and no record of the initial count. -/
def Semaphore.release (s : Semaphore) : Semaphore := { count := wrapInt (s.count + 1) }

/-! ## CustomerEvents (lines 50-69) -/

/-- The four flags and the transaction type of a `CustomerEvents` object.  The condition
variables and the mutex of the object are represented by the blocking rules of the steps. -/
structure CustomerEvents where
  teller_ready_flag : Bool
  transaction_given_flag : Bool
  transaction_complete_flag : Bool
  customer_left_flag : Bool
  transaction_type : String
deriving DecidableEq, Repr

/-- A freshly constructed object: all flags false (lines 56-59), empty string. -/
def CustomerEvents.fresh : CustomerEvents :=
  { teller_ready_flag := false, transaction_given_flag := false,
    transaction_complete_flag := false, customer_left_flag := false, transaction_type := "" }

/-! ## The customer queue (`std::queue<int> customer_queue`, line 86) -/

/-- Call `customer_queue.push(id)`, line 244: append at the tail. -/
def queuePush (q : List Nat) (id : Nat) : List Nat := q ++ [id]

/-- The body of the teller's bounded wait, lines 131-137: when the wait ends with a non-empty
queue the front is read and popped; when it ends with the queue empty nothing is taken. -/
def queuePop : List Nat → Option Nat × List Nat
  | [] => (none, [])
  | id :: rest => (some id, rest)

/-! ## The assignment map (`std::map<int,int> customer_teller_map`, line 89) -/

/-- Statement `customer_teller_map[customer_id] = teller_id`, line 143. -/
def mapWrite (m : Nat → Option Nat) (k v : Nat) : Nat → Option Nat := Function.update m k (some v)

/-- Expression `customer_teller_map[customer_id]` read at line 261: `operator[]` of `std::map`
returns the stored value, and inserts a value-initialised `0` when the key is missing. -/
def mapRead (m : Nat → Option Nat) (k : Nat) : Nat × (Nat → Option Nat) :=
  match m k with
  | some v => (v, m)
  | none => (0, Function.update m k (some 0))

/-! ## Events recorded in the history variable -/

inductive Gate
  | door | manager | safe
deriving DecidableEq, Repr

inductive Mutex
  | print_lock | teller_ready_lock | customer_queue_lock | customer_map_lock
  | events_mtx (c : Nat)
deriving DecidableEq, Repr

inductive Worker
  | teller (t : Nat)
  | customer (c : Nat)
deriving DecidableEq, Repr

inductive Phase
  | teller_ready | transaction_given | transaction_complete | customer_left
deriving DecidableEq, Repr

/-- Operations a step records.  `sem_acquire w g c` and `sem_release w g c` carry the value of
`customer_id` in scope at the call. -/
inductive Event
  | lock (w : Worker) (m : Mutex)
  | unlock (w : Worker) (m : Mutex)
  | sem_acquire (w : Worker) (g : Gate) (c : Nat)
  | sem_release (w : Worker) (g : Gate) (c : Nat)
  | push (c : Nat)
  | pop (t c : Nat)
  | map_write (t c : Nat)
  | map_read (c v : Nat)
  | signal (ph : Phase) (c : Nat) (w : Worker)
  | consume (ph : Phase) (c : Nat) (w : Worker)
deriving DecidableEq, Repr

/-- Function `print_log`, lines 96-106: takes `print_lock` for the duration of the output. -/
def print_log (w : Worker) : List Event := [.lock w .print_lock, .unlock w .print_lock]

/-- A block `{ lock_guard/unique_lock lock(m); body }` performed by `w`. -/
def locked (w : Worker) (m : Mutex) (body : List Event) : List Event :=
  [.lock w m] ++ body ++ [.unlock w m]

/-! ## Program counters -/

/-- Control points of `teller_thread`.  `incReady` to `unlockReady` are inside the block of
lines 111-118, with `teller_ready_lock` held; `fault` is line 150 with a null `events`. -/
inductive TPC
  | start
  | incReady
  | logReady
  | testOpen
  | unlockReady
  | loopHead
  | waitQueue
  | writeMap
  | getEvents
  | signalReady
  | waitGiven
  | readType
  | managerAcquire
  | inManager
  | safeAcquire
  | inSafe
  | signalComplete
  | waitLeft
  | exited
  | fault
deriving DecidableEq, Repr

/-- Control points of `customer_thread`. -/
inductive CPC
  | start
  | waitOpen
  | doorAcquire
  | inDoor
  | createEvents
  | pushQueue
  | waitTellerReady
  | readMap
  | giveTransaction
  | waitComplete
  | signalLeft
  | incServed
  | done
deriving DecidableEq, Repr

/-! ## State -/

structure State where
  /-- globals, lines 72-74 -/
  door_semaphore : Semaphore
  manager_semaphore : Semaphore
  safe_semaphore : Semaphore
  /-- global, line 77: `true` while a teller holds the mutex -/
  teller_ready_lock : Bool
  /-- globals, lines 82-84; the two counters are incremented at most `NUM_TELLERS` and
  `NUM_CUSTOMERS` times -/
  teller_ready_count : Int
  customers_served : Int
  bank_open : Bool
  /-- global, line 86 -/
  customer_queue : List Nat
  /-- global, line 88: `customer_events c = true` when a lookup of key `c` finds the pointer
  to the object `events c` made by customer `c` -/
  customer_events : Nat → Bool
  /-- global, line 89 -/
  customer_teller_map : Nat → Option Nat
  /-- the `CustomerEvents` object allocated by customer `c` at line 237 -/
  events : Nat → CustomerEvents
  /-- locals `transaction_type` and `teller_id` of `customer_thread(c)` -/
  transaction_type : Nat → String
  teller_id : Nat → Nat
  /-- local `customer_id` of `teller_thread(t)`; read only after the assignment of line 133 -/
  customer_id : Nat → Nat
  /-- program counters -/
  tpc : Nat → TPC
  cpc : Nat → CPC
  /-- the process has been killed by a segmentation fault -/
  segfault : Bool
  /-- history variable -/
  trace : List Event

/-- The state at program start. -/
def init : State :=
  { door_semaphore := Semaphore.mk_initial 2
    manager_semaphore := Semaphore.mk_initial 1
    safe_semaphore := Semaphore.mk_initial 2
    teller_ready_lock := false
    teller_ready_count := 0
    customers_served := 0
    bank_open := false
    customer_queue := []
    customer_events := fun _ => false
    customer_teller_map := fun _ => none
    events := fun _ => CustomerEvents.fresh
    transaction_type := fun _ => ""
    teller_id := fun _ => 0
    customer_id := fun _ => 0
    tpc := fun _ => .start
    cpc := fun _ => .start
    segfault := false
    trace := [] }

/-! ## Function `teller_thread` (lines 109-209) -/

/-- Teller `t` moves to control point `pc` and records the operations `evs`. -/
def setT (s : State) (t : Nat) (pc : TPC) (evs : List Event) : State :=
  { s with tpc := Function.update s.tpc t pc, trace := s.trace ++ evs }

/-- Customer `c` moves to control point `pc` and records the operations `evs`. -/
def setC (s : State) (c : Nat) (pc : CPC) (evs : List Event) : State :=
  { s with cpc := Function.update s.cpc c pc, trace := s.trace ++ evs }

/-- An assignment to a member of the `CustomerEvents` object of customer `c`. -/
def updEvents (s : State) (c : Nat) (f : CustomerEvents → CustomerEvents) : State :=
  { s with events := Function.update s.events c (f (s.events c)) }

/-- One step of `teller_thread(t)` from its present control point; `c` is the value of its
local `customer_id`.  A teller that is blocked, or has returned, stays where it is; a teller
that dereferences a null `events` kills the process. -/
def teller_thread (s : State) (t : Nat) : State :=
  let w := Worker.teller t
  let c := s.customer_id t
  match s.tpc t with
  | .start =>
    -- line 112: the `lock_guard` takes `teller_ready_lock`, or waits for it
    if s.teller_ready_lock then s
    else setT { s with teller_ready_lock := true } t .incReady [.lock w .teller_ready_lock]
  | .incReady =>
    -- line 113
    setT { s with teller_ready_count := s.teller_ready_count + 1 } t .logReady []
  | .logReady =>
    -- line 114
    setT s t .testOpen (print_log w)
  | .testOpen =>
    -- lines 115-117
    if s.teller_ready_count = (NUM_TELLERS : Int) then
      setT { s with bank_open := true } t .unlockReady []
    else setT s t .unlockReady []
  | .unlockReady =>
    -- line 118: the `lock_guard` goes out of scope
    setT { s with teller_ready_lock := false } t .loopHead [.unlock w .teller_ready_lock]
  | .loopHead =>
    -- lines 121-125
    if s.customers_served ≥ (NUM_CUSTOMERS : Int) then setT s t .exited []
    else setT s t .waitQueue []
  | .waitQueue =>
    -- lines 128-138
    match queuePop s.customer_queue with
    | (some id, rest) =>
      setT { s with customer_queue := rest, customer_id := Function.update s.customer_id t id }
        t .writeMap (locked w .customer_queue_lock [.pop t id])
    | (none, _) => setT s t .loopHead (locked w .customer_queue_lock [])
  | .writeMap =>
    -- lines 141-144
    setT { s with customer_teller_map := mapWrite s.customer_teller_map c t } t .getEvents
      (locked w .customer_map_lock [.map_write t c])
  | .getEvents =>
    -- line 147, no lock held: `events` points to the object of `c` when the lookup finds
    -- the entry, and is null (control point `fault`) when it does not
    if s.customer_events c then setT s t .signalReady [] else setT s t .fault []
  | .signalReady =>
    -- lines 150-155
    setT (updEvents s c fun e => { e with teller_ready_flag := true }) t .waitGiven
      (locked w (.events_mtx c) [.signal .teller_ready c w] ++ print_log w)
  | .waitGiven =>
    -- lines 158-164
    if (s.events c).transaction_given_flag then
      setT (updEvents s c fun e => { e with transaction_given_flag := false }) t .readType
        (locked w (.events_mtx c) [.consume .transaction_given c w])
    else s
  | .readType =>
    -- lines 166-170, and line 182 on the other branch
    if (s.events c).transaction_type = "WITHDRAWAL" then setT s t .managerAcquire (print_log w)
    else setT s t .safeAcquire (print_log w)
  | .managerAcquire =>
    -- lines 171-172
    match s.manager_semaphore.acquire with
    | some m =>
      setT { s with manager_semaphore := m } t .inManager
        ([.sem_acquire w .manager c] ++ print_log w)
    | none => s
  | .inManager =>
    -- lines 174-182
    setT { s with manager_semaphore := s.manager_semaphore.release } t .safeAcquire
      (print_log w ++ [.sem_release w .manager c] ++ print_log w)
  | .safeAcquire =>
    -- lines 183-184
    match s.safe_semaphore.acquire with
    | some m =>
      setT { s with safe_semaphore := m } t .inSafe
        ([.sem_acquire w .safe c] ++ print_log w)
    | none => s
  | .inSafe =>
    -- lines 186-190
    setT { s with safe_semaphore := s.safe_semaphore.release } t .signalComplete
      (print_log w ++ [.sem_release w .safe c])
  | .signalComplete =>
    -- lines 193-198
    setT (updEvents s c fun e => { e with transaction_complete_flag := true }) t .waitLeft
      (print_log w ++ locked w (.events_mtx c) [.signal .transaction_complete c w])
  | .waitLeft =>
    -- lines 201-208
    if (s.events c).customer_left_flag then
      setT (updEvents s c fun e => { e with customer_left_flag := false }) t .loopHead
        (locked w (.events_mtx c) [.consume .customer_left c w])
    else s
  | .exited => s
  | .fault =>
    -- line 151 with `events` null: `*events->mtx` dereferences the null pointer
    { s with segfault := true }

/-! ## Function `customer_thread` (lines 212-299) -/

/-- Lines 214-215; `r` is the value of `type_dist(gen)`. -/
def chooseType (r : Nat) : String := if r = 0 then "DEPOSIT" else "WITHDRAWAL"

/-- What the program text leaves open: the value each customer draws from `type_dist(gen)` at
line 215, and whether its unlocked insertion into `customer_events` at line 239 is lost to
the data race on the map. -/
structure Env where
  type_dist : Nat → Nat
  insert_lost : Nat → Bool

/-- One step of `customer_thread(c)` from its present control point.  A customer that is
blocked, or has returned, stays where it is. -/
def customer_thread (env : Env) (s : State) (c : Nat) : State :=
  let w := Worker.customer c
  match s.cpc c with
  | .start =>
    -- lines 214-221
    setC { s with transaction_type := Function.update s.transaction_type c (chooseType (env.type_dist c)) }
      c .waitOpen (print_log w)
  | .waitOpen =>
    -- lines 224-226
    if s.bank_open then setC s c .doorAcquire [] else s
  | .doorAcquire =>
    -- lines 229-230
    match s.door_semaphore.acquire with
    | some d =>
      setC { s with door_semaphore := d } c .inDoor ([.sem_acquire w .door c] ++ print_log w)
    | none => s
  | .inDoor =>
    -- lines 231-234
    setC { s with door_semaphore := s.door_semaphore.release } c .createEvents
      ([.sem_release w .door c] ++ print_log w)
  | .createEvents =>
    -- lines 237-239; the insertion of line 239 is made with no lock held
    setC { s with events := Function.update s.events c
                    { CustomerEvents.fresh with transaction_type := s.transaction_type c },
                  customer_events := Function.update s.customer_events c (!env.insert_lost c) }
      c .pushQueue []
  | .pushQueue =>
    -- lines 242-246
    setC { s with customer_queue := queuePush s.customer_queue c } c .waitTellerReady
      (locked w .customer_queue_lock [.push c])
  | .waitTellerReady =>
    -- lines 249-255
    if (s.events c).teller_ready_flag then
      setC (updEvents s c fun e => { e with teller_ready_flag := false }) c .readMap
        (locked w (.events_mtx c) [.consume .teller_ready c w])
    else s
  | .readMap =>
    -- lines 258-262
    let r := mapRead s.customer_teller_map c
    setC { s with customer_teller_map := r.2, teller_id := Function.update s.teller_id c r.1 }
      c .giveTransaction (locked w .customer_map_lock [.map_read c r.1])
  | .giveTransaction =>
    -- lines 265-274
    setC (updEvents s c fun e => { e with transaction_given_flag := true }) c .waitComplete
      (print_log w ++ print_log w ++ locked w (.events_mtx c) [.signal .transaction_given c w])
  | .waitComplete =>
    -- lines 277-283
    if (s.events c).transaction_complete_flag then
      setC (updEvents s c fun e => { e with transaction_complete_flag := false }) c .signalLeft
        (locked w (.events_mtx c) [.consume .transaction_complete c w])
    else s
  | .signalLeft =>
    -- lines 286-291
    setC (updEvents s c fun e => { e with customer_left_flag := true }) c .incServed
      (print_log w ++ locked w (.events_mtx c) [.signal .customer_left c w])
  | .incServed =>
    -- lines 293-296
    setC { s with customers_served := s.customers_served + 1 } c .done (print_log w)
  | .done => s

/-! ## The whole program -/

/-- One step of the thread `w`.  `main` creates the tellers `0 .. NUM_TELLERS-1` (lines 308-310)
and the customers `0 .. NUM_CUSTOMERS-1` (lines 320-322); no other thread exists.  After a
segmentation fault no thread runs. -/
def step (env : Env) (s : State) (w : Worker) : State :=
  if s.segfault then s
  else
    match w with
    | .teller t => if t < NUM_TELLERS then teller_thread s t else s
    | .customer c => if c < NUM_CUSTOMERS then customer_thread env s c else s

/-- The state after the threads of `sched` have taken one step each, in that order. -/
def run (env : Env) (sched : List Worker) : State := sched.foldl (step env) init

/-! ## Counting threads at a control point -/

/-- Number of tellers at control point `pc`. -/
def countTellers (s : State) (pc : TPC) : Nat :=
  (List.range NUM_TELLERS).countP (fun t => decide (s.tpc t = pc))

/-- Number of customers at control point `pc`. -/
def countCustomers (s : State) (pc : CPC) : Nat :=
  (List.range NUM_CUSTOMERS).countP (fun c => decide (s.cpc c = pc))

/-- Counting facts of a state: each semaphore count plus the number of threads between the
acquire and the release is the initial count; `teller_ready_count` counts the tellers that
have done the increment of line 113 and `customers_served` the customers that have returned;
`teller_ready_lock` is held by the one teller inside the block of lines 111-118; and
`bank_open` is true exactly when `teller_ready_count` is `NUM_TELLERS` and no teller stands
between the increment and the test of line 115. -/
structure Counts (s : State) : Prop where
  door : s.door_semaphore.count + countCustomers s .inDoor = 2
  manager : s.manager_semaphore.count + countTellers s .inManager = 1
  safe : s.safe_semaphore.count + countTellers s .inSafe = 2
  door_nonneg : 0 ≤ s.door_semaphore.count
  manager_nonneg : 0 ≤ s.manager_semaphore.count
  safe_nonneg : 0 ≤ s.safe_semaphore.count
  ready : s.teller_ready_count + countTellers s .start + countTellers s .incReady = NUM_TELLERS
  served : s.customers_served = countCustomers s .done
  lock : (if s.teller_ready_lock = true then 1 else 0) =
    countTellers s .incReady + countTellers s .logReady + countTellers s .testOpen +
      countTellers s .unlockReady
  opened : s.bank_open = true ↔
    (s.teller_ready_count = NUM_TELLERS ∧ countTellers s .logReady = 0 ∧
      countTellers s .testOpen = 0)

/-! ## The handshake invariant -/

/-- Control points at which the local `customer_id` of a teller holds the customer it has
dequeued and not yet finished with; `fault` is one of them: the teller has the customer's id
and a null `events`. -/
def TPC.serving : TPC → Bool
  | .writeMap | .getEvents | .signalReady | .fault | .waitGiven | .readType | .managerAcquire
  | .inManager | .safeAcquire | .inSafe | .signalComplete | .waitLeft => true
  | _ => false

/-- Control points of a customer at which its `CustomerEvents` object exists. -/
def CPC.hasEvents : CPC → Bool
  | .start | .waitOpen | .doorAcquire | .inDoor | .createEvents => false
  | _ => true

/-- Control points of a customer after the push onto `customer_queue`. -/
def CPC.pushed : CPC → Bool
  | .start | .waitOpen | .doorAcquire | .inDoor | .createEvents | .pushQueue => false
  | _ => true

/-- Control points of a customer after it consumed `teller_ready`. -/
def CPC.pastReady : CPC → Bool
  | .readMap | .giveTransaction | .waitComplete | .signalLeft | .incServed | .done => true
  | _ => false

/-- Which flags of a customer's object may be set at each control point of the customer. -/
def FlagsOK (pc : CPC) (e : CustomerEvents) : Prop :=
  match pc with
  | .waitTellerReady =>
    e.transaction_given_flag = false ∧ e.transaction_complete_flag = false ∧
      e.customer_left_flag = false
  | .waitComplete =>
    e.teller_ready_flag = false ∧ e.customer_left_flag = false ∧
      (e.transaction_given_flag = true → e.transaction_complete_flag = false)
  | .incServed | .done =>
    e.teller_ready_flag = false ∧ e.transaction_given_flag = false ∧
      e.transaction_complete_flag = false
  | _ =>
    e.teller_ready_flag = false ∧ e.transaction_given_flag = false ∧
      e.transaction_complete_flag = false ∧ e.customer_left_flag = false

/-- Where the customer served by teller `t` can be, for each control point of the teller;
`m` is the customer's entry of `customer_teller_map`. -/
def TellerOK (t : Nat) (tpc : TPC) (cpc : CPC) (e : CustomerEvents) (m : Option Nat) : Prop :=
  match tpc with
  | .writeMap => cpc = .waitTellerReady ∧ e.teller_ready_flag = false ∧ m = none
  | .getEvents | .signalReady | .fault =>
    cpc = .waitTellerReady ∧ e.teller_ready_flag = false ∧ m = some t
  | .waitGiven =>
    m = some t ∧ ((cpc = .waitTellerReady ∧ e.teller_ready_flag = true) ∨ cpc = .readMap ∨
      cpc = .giveTransaction ∨ (cpc = .waitComplete ∧ e.transaction_given_flag = true))
  | .readType | .managerAcquire | .inManager | .safeAcquire | .inSafe | .signalComplete =>
    m = some t ∧ cpc = .waitComplete ∧ e.transaction_given_flag = false ∧
      e.transaction_complete_flag = false
  | .waitLeft =>
    m = some t ∧ ((cpc = .waitComplete ∧ e.transaction_complete_flag = true) ∨
      cpc = .signalLeft ∨ ((cpc = .incServed ∨ cpc = .done) ∧ e.customer_left_flag = true))
  | _ => True

/-- The customer is inside the handshake with a teller: some phase has been signalled and
the teller has not yet consumed `customer_left`. -/
def Engaged (pc : CPC) (e : CustomerEvents) : Prop :=
  e.teller_ready_flag = true ∨ pc = .readMap ∨ pc = .giveTransaction ∨ pc = .waitComplete ∨
    pc = .signalLeft ∨ e.customer_left_flag = true

structure Core (s : State) : Prop where
  flags : ∀ c, FlagsOK (s.cpc c) (s.events c)
  queue_nodup : s.customer_queue.Nodup
  queue_mem : ∀ c, c ∈ s.customer_queue →
    s.cpc c = .waitTellerReady ∧ (s.events c).teller_ready_flag = false ∧
      s.customer_teller_map c = none ∧
      ∀ t, (s.tpc t).serving = true → s.customer_id t ≠ c
  uniq : ∀ t1 t2, (s.tpc t1).serving = true → (s.tpc t2).serving = true →
    s.customer_id t1 = s.customer_id t2 → t1 = t2
  teller : ∀ t, (s.tpc t).serving = true →
    TellerOK t (s.tpc t) (s.cpc (s.customer_id t)) (s.events (s.customer_id t))
      (s.customer_teller_map (s.customer_id t))
  unassigned : ∀ c, (s.cpc c).pushed = false → s.customer_teller_map c = none
  assigned : ∀ c, ((s.events c).teller_ready_flag = true ∨ (s.cpc c).pastReady = true) →
    (s.customer_teller_map c).isSome = true
  has_teller : ∀ c, Engaged (s.cpc c) (s.events c) →
    ∃ t, s.customer_teller_map c = some t ∧ (s.tpc t).serving = true ∧ s.customer_id t = c

/-! ## Projections of the history variable -/

/-- Tellers that dequeued customer `c`, in trace order. -/
def pops (c : Nat) (tr : List Event) : List Nat :=
  tr.filterMap fun e =>
    match e with
    | .pop t c1 => if c1 = c then some t else none
    | _ => none

/-- Values written to `customer_teller_map[c]`, in trace order. -/
def mapWrites (c : Nat) (tr : List Event) : List Nat :=
  tr.filterMap fun e =>
    match e with
    | .map_write t c1 => if c1 = c then some t else none
    | _ => none

/-- Flag operations on the `CustomerEvents` object of customer `c`, in trace order. -/
def handshake (c : Nat) (tr : List Event) : List Event :=
  tr.filter fun e =>
    match e with
    | .signal _ c1 _ => decide (c1 = c)
    | .consume _ c1 _ => decide (c1 = c)
    | _ => false

/-- The four phases of the handshake between customer `c` and teller `t`, each set by one side
and then consumed by the other. -/
def protocol (t c : Nat) : List Event :=
  [ .signal .teller_ready c (.teller t), .consume .teller_ready c (.customer c),
    .signal .transaction_given c (.customer c), .consume .transaction_given c (.teller t),
    .signal .transaction_complete c (.teller t), .consume .transaction_complete c (.customer c),
    .signal .customer_left c (.customer c), .consume .customer_left c (.teller t) ]

/-- Number of flag operations done on the object of a customer, read off the customer's
control point and the flags. -/
def hsCount (pc : CPC) (e : CustomerEvents) : Nat :=
  match pc with
  | .start | .waitOpen | .doorAcquire | .inDoor | .createEvents | .pushQueue => 0
  | .waitTellerReady => if e.teller_ready_flag then 1 else 0
  | .readMap | .giveTransaction => 2
  | .waitComplete =>
    if e.transaction_given_flag then 3 else if e.transaction_complete_flag then 5 else 4
  | .signalLeft => 6
  | .incServed | .done => if e.customer_left_flag then 7 else 8

inductive GateOp
  | acquire (g : Gate)
  | release (g : Gate)
deriving DecidableEq, Repr

/-- Semaphore operations performed by tellers with `customer_id = c`, in trace order. -/
def tellerGateOps (c : Nat) (tr : List Event) : List GateOp :=
  tr.filterMap fun e =>
    match e with
    | .sem_acquire (.teller _) g c1 => if c1 = c then some (.acquire g) else none
    | .sem_release (.teller _) g c1 => if c1 = c then some (.release g) else none
    | _ => none

/-- The semaphore operations of one service, by transaction type (lines 169-190). -/
def serviceOps (transaction_type : String) : List GateOp :=
  (if transaction_type = "WITHDRAWAL" then [.acquire .manager, .release .manager] else []) ++
    [.acquire .safe, .release .safe]

/-- The semaphore operations a serving teller has done for its customer, by control point. -/
def GateOK (pc : TPC) (ty : String) (ops : List GateOp) : Prop :=
  match pc with
  | .managerAcquire => ty = "WITHDRAWAL" ∧ ops = []
  | .inManager => ty = "WITHDRAWAL" ∧ ops = [.acquire .manager]
  | .safeAcquire =>
    ops = if ty = "WITHDRAWAL" then [.acquire .manager, .release .manager] else []
  | .inSafe =>
    ops = (if ty = "WITHDRAWAL" then [.acquire .manager, .release .manager] else []) ++
      [.acquire .safe]
  | .signalComplete | .waitLeft => ops = serviceOps ty
  | _ => ops = []

/-- What the history says about the present state. -/
structure Hist (s : State) : Prop where
  not_popped : ∀ c, ((s.cpc c).pushed = false ∨ c ∈ s.customer_queue) →
    pops c s.trace = [] ∧ tellerGateOps c s.trace = []
  popped_by : ∀ t, (s.tpc t).serving = true → pops (s.customer_id t) s.trace = [t]
  mapped : ∀ c t, s.customer_teller_map c = some t →
    pops c s.trace = [t] ∧ mapWrites c s.trace = [t]
  unmapped : ∀ c, s.customer_teller_map c = none → mapWrites c s.trace = []
  handshake : ∀ c, handshake c s.trace =
    (protocol ((s.customer_teller_map c).getD 0) c).take (hsCount (s.cpc c) (s.events c))
  gates : ∀ t, (s.tpc t).serving = true →
    GateOK (s.tpc t) (s.events (s.customer_id t)).transaction_type
      (tellerGateOps (s.customer_id t) s.trace)
  gates_done : ∀ c, 5 ≤ hsCount (s.cpc c) (s.events c) →
    tellerGateOps c s.trace = serviceOps (s.events c).transaction_type
  at_most_once : ∀ c, (pops c s.trace).length ≤ 1

/-- A list of events without queue, map, flag or teller semaphore operations. -/
def Quiet (evs : List Event) : Prop :=
  ∀ c, pops c evs = [] ∧ mapWrites c evs = [] ∧ handshake c evs = [] ∧ tellerGateOps c evs = []

/-- Elementary facts: threads outside the two populations never start, a customer keeps the
transaction type it drew and stores it in its object, and nobody passes the barrier before
`bank_open`. -/
structure Basics (env : Env) (s : State) : Prop where
  teller_bound : ∀ t, NUM_TELLERS ≤ t → s.tpc t = .start
  customer_bound : ∀ c, NUM_CUSTOMERS ≤ c → s.cpc c = .start
  chosen : ∀ c, s.cpc c ≠ .start → s.transaction_type c = chooseType (env.type_dist c)
  stored : ∀ c, (s.cpc c).hasEvents = true →
    (s.events c).transaction_type = s.transaction_type c
  barrier : ∀ c, s.cpc c ≠ .start → s.cpc c ≠ .waitOpen → s.bank_open = true
  map_bound : ∀ c t, s.customer_teller_map c = some t → t < NUM_TELLERS

/-! ## Lock and semaphore operations of one worker -/

/-- A resource a worker can hold: a mutex or one unit of a semaphore.  The private mutex of a
`Semaphore`, taken and released inside `acquire()` and `release()`, is part of the semaphore
operation and is not listed. -/
inductive Res
  | mutex (m : Mutex)
  | sem (g : Gate)
deriving DecidableEq, Repr

inductive LockOp
  | acquire (r : Res)
  | release (r : Res)
deriving DecidableEq, Repr

/-- The worker that performs an event. -/
def Event.actor : Event → Worker
  | .lock w _ => w
  | .unlock w _ => w
  | .sem_acquire w _ _ => w
  | .sem_release w _ _ => w
  | .push c => .customer c
  | .pop t _ => .teller t
  | .map_write t _ => .teller t
  | .map_read c _ => .customer c
  | .signal _ _ w => w
  | .consume _ _ w => w

/-- The lock and semaphore operation of an event, if it is one. -/
def Event.lockOp : Event → Option LockOp
  | .lock _ m => some (.acquire (.mutex m))
  | .unlock _ m => some (.release (.mutex m))
  | .sem_acquire _ g _ => some (.acquire (.sem g))
  | .sem_release _ g _ => some (.release (.sem g))
  | _ => none

/-- The lock and semaphore operations of worker `w`, in trace order. -/
def lockOps (w : Worker) (tr : List Event) : List LockOp :=
  tr.filterMap fun e => if e.actor = w then e.lockOp else none

/-- Resources held after a sequence of operations, starting from `h`. -/
def heldAfter : List Res → List LockOp → List Res
  | h, [] => h
  | h, .acquire r :: ops => heldAfter (r :: h) ops
  | h, .release r :: ops => heldAfter (h.erase r) ops

/-- Resources held after a sequence of operations of a worker that started with none. -/
def held (ops : List LockOp) : List Res := heldAfter [] ops

/-- The discipline "hold nothing when acquiring anything". -/
def SingleResource (ops : List LockOp) : Prop :=
  ∀ pre r post, ops = pre ++ .acquire r :: post → held pre = []

/-- The discipline the program keeps: `print_lock` may be taken while `teller_ready_lock` or
one semaphore unit is held; everything else is taken with nothing held. -/
def SingleResourceExceptLog (ops : List LockOp) : Prop :=
  ∀ pre r post, ops = pre ++ .acquire r :: post →
    (r ≠ .mutex .print_lock → held pre = []) ∧
    (r = .mutex .print_lock →
      held pre = [] ∨ held pre = [.mutex .teller_ready_lock] ∨ ∃ g, held pre = [.sem g])

/-- Whether `r` may be acquired while `h` is held, under `SingleResourceExceptLog`. -/
def allowed (h : List Res) (r : Res) : Bool :=
  if r = .mutex .print_lock then
    decide (h = []) || decide (h = [.mutex .teller_ready_lock]) || decide (h = [.sem .door]) ||
      decide (h = [.sem .manager]) || decide (h = [.sem .safe])
  else decide (h = [])

/-- Run the operations from the held set `h`; `none` when an acquire is not allowed. -/
def lockRun : List Res → List LockOp → Option (List Res)
  | h, [] => some h
  | h, .acquire r :: ops => if allowed h r then lockRun (r :: h) ops else none
  | h, .release r :: ops => lockRun (h.erase r) ops

/-- Resources a worker holds at its control point: `teller_ready_lock` inside the block of lines
111-118, and the semaphore unit between an `acquire` and the matching `release`; every other
mutex is released inside the step that takes it. -/
def heldOf (s : State) : Worker → List Res
  | .teller t =>
    match s.tpc t with
    | .incReady | .logReady | .testOpen | .unlockReady => [.mutex .teller_ready_lock]
    | .inManager => [.sem .manager]
    | .inSafe => [.sem .safe]
    | _ => []
  | .customer c =>
    match s.cpc c with
    | .inDoor => [.sem .door]
    | _ => []

/-- The operations of every worker so far are accepted by `lockRun` and leave it holding what
its control point says. -/
def Locks (s : State) : Prop :=
  ∀ w, lockRun [] (lockOps w s.trace) = some (heldOf s w)

/-! ## The queue is first-in first-out -/

/-- Customer ids pushed onto `customer_queue`, in trace order. -/
def pushedIds (tr : List Event) : List Nat :=
  tr.filterMap fun e =>
    match e with
    | .push c => some c
    | _ => none

/-- Customer ids popped from `customer_queue`, in trace order. -/
def poppedIds (tr : List Event) : List Nat :=
  tr.filterMap fun e =>
    match e with
    | .pop _ c => some c
    | _ => none

/-- The ids popped so far followed by the ids still queued are the ids pushed so far. -/
def Fifo (s : State) : Prop :=
  poppedIds s.trace ++ s.customer_queue = pushedIds s.trace

/-! ## Environments and schedules used as concrete inputs -/

/-- Customer `c` draws `c % 2`: even ids deposit, odd ids withdraw.  No insertion is lost. -/
def sampleDraw : Env := { type_dist := fun c => c % 2, insert_lost := fun _ => false }

/-- As `sampleDraw`, but the insertion of customer 0 into `customer_events` is lost. -/
def lossyDraw : Env := { type_dist := fun c => c % 2, insert_lost := fun c => decide (c = 0) }

/-- Teller `t` runs the block of lines 111-118: lock, increment, log, test, unlock. -/
def register (t : Nat) : List Worker := List.replicate 5 (.teller t)

/-- The three tellers register one after the other. -/
def openBank : List Worker := register 0 ++ register 1 ++ register 2

/-- Teller 0 serves customer `c` from its first line to its last; the two spare steps of the
teller are used by the manager visit of a withdrawal and do nothing for a deposit. -/
def serveOne (c : Nat) : List Worker :=
  List.replicate 6 (.customer c) ++ List.replicate 5 (.teller 0) ++
    List.replicate 3 (.customer c) ++ List.replicate 7 (.teller 0) ++
    List.replicate 3 (.customer c) ++ [.teller 0]

/-- The three tellers register, then teller 0 serves the customers one after the other. -/
def serveAll : List Worker := openBank ++ (List.range NUM_CUSTOMERS).flatMap serveOne

/-- After `serveAll`, every teller runs its loop test once more. -/
def serveAllAndClose : List Worker := serveAll ++ [.teller 0, .teller 1, .teller 2]

/-- Tellers 0 and 1 register; teller 2 takes the lock and increments `teller_ready_count`. -/
def lastIncrement : List Worker := register 0 ++ register 1 ++ [.teller 2, .teller 2]

/-- The bank opens, customer 0 gets in line, teller 0 dequeues it, looks up its events and
dereferences what it found. -/
def lookupLost : List Worker :=
  openBank ++ List.replicate 6 (.customer 0) ++ List.replicate 5 (.teller 0)

/-- Every thread has returned. -/
def Terminated (s : State) : Prop :=
  (∀ t, t < NUM_TELLERS → s.tpc t = .exited) ∧ (∀ c, c < NUM_CUSTOMERS → s.cpc c = .done)

instance (s : State) : Decidable (Terminated s) := by
  unfold Terminated; infer_instance

/-- The customer has consumed `transaction_complete`: its service is over. -/
def CPC.served : CPC → Bool
  | .signalLeft | .incServed | .done => true
  | _ => false

/-! ### C6: the queue -/

/-- An operation on `customer_queue`: a customer's push, or the end of a teller's bounded
wait. -/
inductive QueueOp
  | push (id : Nat)
  | pop
deriving DecidableEq, Repr

/-- Run a sequence of operations on the queue `q`; the result is the list of ids the pops
returned, in order, and the final queue. -/
def queueRun : List Nat → List QueueOp → List Nat × List Nat
  | q, [] => ([], q)
  | q, .push id :: ops => queueRun (queuePush q id) ops
  | q, .pop :: ops =>
    match queuePop q with
    | (some id, rest) => (id :: (queueRun rest ops).1, (queueRun rest ops).2)
    | (none, rest) => queueRun rest ops

/-- The ids pushed by a sequence of operations, in order. -/
def pushedBy : List QueueOp → List Nat
  | [] => []
  | .push id :: ops => id :: pushedBy ops
  | .pop :: ops => pushedBy ops

/-- A schedule that brings customer 0 to its read of `customer_teller_map`. -/
def untilReadMap : List Worker :=
  openBank ++ List.replicate 6 (.customer 0) ++ List.replicate 5 (.teller 1) ++ [.customer 0]

/-! # Theorems -/

theorem countP_update_ge {α : Type} (p : α → Bool) (f : Nat → α) (i n : Nat) (v : α) (hi : n ≤ i) :
    (List.range n).countP (fun j => p (Function.update f i v j)) =
      (List.range n).countP (fun j => p (f j)) := by
  apply List.countP_congr
  intro j hj
  have : j ≠ i := by
    have := List.mem_range.mp hj
    omega
  simp [Function.update_noteq this]

theorem countP_update {α : Type} (p : α → Bool) (f : Nat → α) (i n : Nat) (v : α) (hi : i < n) :
    (List.range n).countP (fun j => p (Function.update f i v j)) + (if p (f i) then 1 else 0) =
      (List.range n).countP (fun j => p (f j)) + (if p v then 1 else 0) := by
  induction n with
  | zero => omega
  | succ n ih =>
    rw [List.range_succ, List.countP_append, List.countP_append]
    by_cases h : i = n
    · subst h
      rw [countP_update_ge p f i i v (le_refl _)]
      simp [List.countP_cons]
      omega
    · have hlt : i < n := by omega
      have := ih hlt
      simp [List.countP_cons, Function.update_noteq (Ne.symm h)]
      omega

theorem countP_pos_of {α : Type} (p : α → Bool) (f : Nat → α) (i n : Nat) (hi : i < n)
    (h : p (f i) = true) : 1 ≤ (List.range n).countP (fun j => p (f j)) := by
  apply List.countP_pos_iff.mpr
  exact ⟨i, List.mem_range.mpr hi, h⟩

theorem count_pos_of {α : Type} [DecidableEq α] (a : α) (f : Nat → α) (i n : Nat) (hi : i < n)
    (h : f i = a) : 1 ≤ (List.range n).countP (fun j => decide (f j = a)) :=
  countP_pos_of (fun x => decide (x = a)) f i n hi (by simpa using h)

theorem count_update_eq {α : Type} [DecidableEq α] (a : α) (f : Nat → α) (i n : Nat) (v : α)
    (hi : i < n) :
    (List.range n).countP (fun j => decide (Function.update f i v j = a)) =
      (List.range n).countP (fun j => decide (f j = a)) - (if f i = a then 1 else 0)
        + (if v = a then 1 else 0) := by
  have h1 := countP_update (fun x => decide (x = a)) f i n v hi
  have h2 := count_pos_of a f i n hi
  simp only [decide_eq_true_eq] at h1
  by_cases h : f i = a
  · have := h2 h
    simp only [h, if_true] at h1 ⊢
    omega
  · simp only [h, if_false] at h1 ⊢
    omega

theorem count_le_range {α : Type} [DecidableEq α] (a : α) (f : Nat → α) (n : Nat) :
    (List.range n).countP (fun j => decide (f j = a)) ≤ n := by
  have := List.countP_le_length (fun j => decide (f j = a)) (l := List.range n)
  simpa using this

theorem count_eq_range {α : Type} [DecidableEq α] (a : α) (f : Nat → α) (n : Nat)
    (h : n ≤ (List.range n).countP (fun j => decide (f j = a))) : ∀ i, i < n → f i = a := by
  intro i hi
  by_contra hne
  have h1 := countP_update (fun x => decide (x = a)) f i n a hi
  have h2 := count_le_range a (Function.update f i a) n
  simp only [decide_eq_true_eq, hne, if_false, if_true] at h1
  omega

theorem wrapInt_of_range (x : Int) (h1 : INT_MIN ≤ x) (h2 : x ≤ INT_MAX) : wrapInt x = x := by
  unfold wrapInt
  unfold INT_MIN INT_MAX at *
  omega

/-- Every result of `wrapInt` is an `int`. -/
theorem wrapInt_range (x : Int) : INT_MIN ≤ wrapInt x ∧ wrapInt x ≤ INT_MAX := by
  unfold wrapInt INT_MIN INT_MAX
  omega

/-- The constructor and `release()` leave a count in the range of `int`, and `acquire()` keeps
it there. -/
theorem Semaphore.count_range (C : Int) (s m : Semaphore)
    (hs : INT_MIN ≤ s.count ∧ s.count ≤ INT_MAX) (hm : s.acquire = some m) :
    (INT_MIN ≤ (Semaphore.mk_initial C).count ∧ (Semaphore.mk_initial C).count ≤ INT_MAX) ∧
    (INT_MIN ≤ s.release.count ∧ s.release.count ≤ INT_MAX) ∧
    (INT_MIN ≤ m.count ∧ m.count ≤ INT_MAX) := by
  refine ⟨wrapInt_range C, wrapInt_range _, ?_⟩
  unfold Semaphore.acquire at hm
  split_ifs at hm with h
  cases hm
  unfold INT_MIN INT_MAX at *
  constructor <;> simp only <;> omega

theorem counts_init : Counts init := by
  constructor <;>
    simp [init, countTellers, countCustomers, Semaphore.mk_initial, NUM_TELLERS, wrapInt, INT_MIN]

theorem Semaphore.acquire_eq_some (s m : Semaphore) :
    s.acquire = some m ↔ 0 < s.count ∧ m.count = s.count - 1 := by
  unfold Semaphore.acquire
  cases m
  split_ifs with h <;> simp_all [eq_comm]

/-- The invariant does not mention `segfault`. -/
theorem counts_segfault (s : State) (h : Counts s) : Counts { s with segfault := true } :=
  ⟨h.door, h.manager, h.safe, h.door_nonneg, h.manager_nonneg, h.safe_nonneg, h.ready, h.served,
    h.lock, h.opened⟩

set_option maxHeartbeats 4000000 in
theorem counts_teller_thread (s : State) (t : Nat) (ht : t < NUM_TELLERS) (h : Counts s) :
    Counts (teller_thread s t) := by
  have h0 := h
  have hsf := counts_segfault s h
  obtain ⟨h1, h2, h3, h4, h5, h6, h7, h8, h9, h10⟩ := h
  have b1 := count_pos_of TPC.inManager s.tpc t NUM_TELLERS ht
  have b2 := count_pos_of TPC.inSafe s.tpc t NUM_TELLERS ht
  have b3 := count_pos_of TPC.start s.tpc t NUM_TELLERS ht
  have b4 := count_pos_of TPC.incReady s.tpc t NUM_TELLERS ht
  have b5 := count_pos_of TPC.logReady s.tpc t NUM_TELLERS ht
  have b6 := count_pos_of TPC.testOpen s.tpc t NUM_TELLERS ht
  have b7 := count_pos_of TPC.unlockReady s.tpc t NUM_TELLERS ht
  have e1 := fun v => count_update_eq TPC.inManager s.tpc t NUM_TELLERS v ht
  have e2 := fun v => count_update_eq TPC.inSafe s.tpc t NUM_TELLERS v ht
  have e3 := fun v => count_update_eq TPC.start s.tpc t NUM_TELLERS v ht
  have e4 := fun v => count_update_eq TPC.incReady s.tpc t NUM_TELLERS v ht
  have e5 := fun v => count_update_eq TPC.logReady s.tpc t NUM_TELLERS v ht
  have e6 := fun v => count_update_eq TPC.testOpen s.tpc t NUM_TELLERS v ht
  have e7 := fun v => count_update_eq TPC.unlockReady s.tpc t NUM_TELLERS v ht
  simp only [countTellers, countCustomers] at h1 h2 h3 h7 h8 h9 h10
  generalize List.countP (fun t => decide (s.tpc t = .inManager)) (List.range NUM_TELLERS) = cm at *
  generalize List.countP (fun t => decide (s.tpc t = .inSafe)) (List.range NUM_TELLERS) = cs at *
  generalize List.countP (fun t => decide (s.tpc t = .start)) (List.range NUM_TELLERS) = cr at *
  generalize List.countP (fun t => decide (s.tpc t = .incReady)) (List.range NUM_TELLERS) = ci at *
  generalize List.countP (fun t => decide (s.tpc t = .logReady)) (List.range NUM_TELLERS) = cl at *
  generalize List.countP (fun t => decide (s.tpc t = .testOpen)) (List.range NUM_TELLERS) = ct at *
  generalize List.countP (fun t => decide (s.tpc t = .unlockReady)) (List.range NUM_TELLERS) =
    cu at *
  cases hl : s.teller_ready_lock
  all_goals
    simp only [hl, Bool.false_eq_true, if_false, if_true] at h9
    unfold teller_thread
    split
    all_goals
      rename_i heq
      simp only [heq, reduceCtorEq, if_false, if_true, true_implies, false_implies]
        at b1 b2 b3 b4 b5 b6 b7 e1 e2 e3 e4 e5 e6 e7
    all_goals try dsimp only
    all_goals try exact hsf
    all_goals try simp only [hl, Bool.false_eq_true, if_false, if_true]
    all_goals try split_ifs
    all_goals try split
    all_goals try (rename_i hacq; rw [Semaphore.acquire_eq_some] at hacq)
    all_goals first
      | exact h0
      | exact hsf
      | (constructor
         all_goals
           try simp only [countTellers, countCustomers, setT, updEvents, e1, e2, e3, e4, e5, e6,
             e7, reduceCtorEq, if_false, if_true, Semaphore.release, wrapInt, INT_MIN, hl,
             Bool.false_eq_true]
         all_goals first
           | assumption
           | omega
           | (constructor
              · intro hb
                first
                  | (refine ⟨?_, ?_, ?_⟩ <;> omega)
                  | (have hx := h10.mp hb
                     refine ⟨?_, ?_, ?_⟩ <;> omega)
              · intro hx
                first
                  | rfl
                  | trivial
                  | (apply h10.mpr
                     refine ⟨?_, ?_, ?_⟩ <;> omega)
                  | (exfalso
                     omega)
                  | exact hx.2.1.elim
                  | exact hx.2.2.elim))

set_option maxHeartbeats 4000000 in
theorem counts_customer_thread (env : Env) (s : State) (c : Nat) (hc : c < NUM_CUSTOMERS)
    (h : Counts s) : Counts (customer_thread env s c) := by
  have h0 := h
  obtain ⟨h1, h2, h3, h4, h5, h6, h7, h8, h9, h10⟩ := h
  have b1 := count_pos_of CPC.inDoor s.cpc c NUM_CUSTOMERS hc
  have b2 := count_pos_of CPC.done s.cpc c NUM_CUSTOMERS hc
  have e1 := fun v => count_update_eq CPC.inDoor s.cpc c NUM_CUSTOMERS v hc
  have e2 := fun v => count_update_eq CPC.done s.cpc c NUM_CUSTOMERS v hc
  simp only [countTellers, countCustomers] at h1 h2 h3 h7 h8
  generalize List.countP (fun c => decide (s.cpc c = .inDoor)) (List.range NUM_CUSTOMERS) = cd at *
  generalize List.countP (fun c => decide (s.cpc c = .done)) (List.range NUM_CUSTOMERS) = cn at *
  unfold customer_thread
  split
  all_goals
    rename_i heq
    simp only [heq, reduceCtorEq, if_false, if_true, true_implies, false_implies] at b1 b2 e1 e2
  all_goals try dsimp only
  all_goals try split_ifs
  all_goals try split
  all_goals try (rename_i hacq; rw [Semaphore.acquire_eq_some] at hacq)
  all_goals first
    | exact h0
    | (constructor
       all_goals
         try simp only [countTellers, countCustomers, setC, updEvents, e1, e2, reduceCtorEq,
           if_false, if_true, Semaphore.release, wrapInt, INT_MIN]
       all_goals first
         | assumption
         | omega)

/-- A property kept by every step of a teller and of a customer is kept by `step`. -/
theorem step_cases (P : State → Prop) (env : Env) (s : State) (w : Worker) (h : P s)
    (ht : ∀ t, t < NUM_TELLERS → P (teller_thread s t))
    (hc : ∀ c, c < NUM_CUSTOMERS → P (customer_thread env s c)) : P (step env s w) := by
  unfold step
  split_ifs with hsf
  · exact h
  · cases w with
    | teller t =>
      simp only
      split_ifs with h1
      · exact ht t h1
      · exact h
    | customer c =>
      simp only
      split_ifs with h1
      · exact hc c h1
      · exact h

theorem counts_step (env : Env) (s : State) (w : Worker) (h : Counts s) :
    Counts (step env s w) :=
  step_cases Counts env s w h (fun t ht => counts_teller_thread s t ht h)
    (fun c hc => counts_customer_thread env s c hc h)

theorem run_append (env : Env) (sched : List Worker) (w : Worker) :
    run env (sched ++ [w]) = step env (run env sched) w := by
  simp [run, List.foldl_append]

/-- An invariant of `step` that holds initially holds after every schedule. -/
theorem run_induction (P : State → Prop) (env : Env) (h0 : P init)
    (hstep : ∀ s w, P s → P (step env s w)) (sched : List Worker) : P (run env sched) := by
  induction sched using List.reverseRecOn with
  | nil => exact h0
  | append_singleton l w ih =>
    rw [run_append]
    exact hstep _ _ ih

theorem counts_run (env : Env) (sched : List Worker) : Counts (run env sched) :=
  run_induction Counts env counts_init (fun s w h => counts_step env s w h) sched

theorem core_init : Core init := by
  constructor <;> simp [init, FlagsOK, CustomerEvents.fresh, TPC.serving, CPC.hasEvents,
    CPC.pastReady, CPC.pushed, Engaged]

/-- The invariant does not mention `segfault`. -/
theorem core_segfault (s : State) (h : Core s) : Core { s with segfault := true } :=
  ⟨h.flags, h.queue_nodup, h.queue_mem, h.uniq, h.teller, h.unassigned, h.assigned,
    h.has_teller⟩

theorem TellerOK.pushed {t : Nat} {pc : TPC} {cpc : CPC} {e : CustomerEvents} {m : Option Nat}
    (h : TellerOK t pc cpc e m) (hs : pc.serving = true) : cpc.pushed = true := by
  cases pc <;> cases cpc <;> simp_all [TPC.serving, TellerOK, CPC.pushed]

/-- A teller that stays with its customer `c` moves to `pc`, leaving `e` in the customer's
object and `m` in its map entry: the invariant is kept when `e` and `m` fit `pc`. -/
theorem core_teller_update {s s1 : State} {t : Nat} (pc : TPC) (e : CustomerEvents)
    (m : Option Nat) (h : Core s) (hs : (s.tpc t).serving = true) (hs1 : pc.serving = true)
    (htpc : s1.tpc = Function.update s.tpc t pc) (hcpc : s1.cpc = s.cpc)
    (hev : s1.events = Function.update s.events (s.customer_id t) e)
    (hmap : s1.customer_teller_map =
      Function.update s.customer_teller_map (s.customer_id t) m)
    (hq : s1.customer_queue = s.customer_queue)
    (hid : s1.customer_id = s.customer_id)
    (hF : FlagsOK (s.cpc (s.customer_id t)) e)
    (hT : TellerOK t pc (s.cpc (s.customer_id t)) e m)
    (hA : ((s.customer_teller_map (s.customer_id t)).isSome = true ∨
      e.teller_ready_flag = true) → m.isSome = true) (hm : m = some t) : Core s1 := by
  have hcq : s.customer_id t ∉ s.customer_queue := fun hm => (h.queue_mem _ hm).2.2.2 t hs rfl
  have hother : ∀ t1, t1 ≠ t → (s.tpc t1).serving = true →
      s.customer_id t1 ≠ s.customer_id t := fun t1 hne hst heq => hne (h.uniq t1 t hst hs heq)
  have hhas := hT.pushed hs1
  have hserv : ∀ t1, (Function.update s.tpc t pc t1).serving = true →
      (s.tpc t1).serving = true := by
    intro t1 h1
    by_cases e1 : t1 = t
    · subst e1; exact hs
    · rwa [Function.update_noteq e1] at h1
  constructor
  · intro c1
    rw [hcpc, hev]
    by_cases e1 : c1 = s.customer_id t
    · subst e1; rw [Function.update_same]; exact hF
    · rw [Function.update_noteq e1]; exact h.flags c1
  · rw [hq]; exact h.queue_nodup
  · intro c1 hc1
    rw [hq] at hc1
    have hne : c1 ≠ s.customer_id t := fun e1 => hcq (e1 ▸ hc1)
    obtain ⟨q1, q2, q3, q4⟩ := h.queue_mem c1 hc1
    rw [hcpc, hev, hmap, hid, htpc]
    simp only [Function.update_noteq hne]
    exact ⟨q1, q2, q3, fun t1 ht1 => q4 t1 (hserv t1 ht1)⟩
  · intro t1 t2 h1 h2 h3
    rw [htpc] at h1 h2
    rw [hid] at h3
    exact h.uniq t1 t2 (hserv t1 h1) (hserv t2 h2) h3
  · intro t1 ht1
    rw [htpc] at ht1
    rw [htpc, hcpc, hev, hmap, hid]
    by_cases e1 : t1 = t
    · subst e1; simp only [Function.update_same]; exact hT
    · have hne := hother t1 e1 (hserv t1 ht1)
      simp only [Function.update_noteq e1, Function.update_noteq hne]
      exact h.teller t1 (hserv t1 ht1)
  · intro c1 hc1
    rw [hcpc] at hc1
    rw [hmap]
    have hne : c1 ≠ s.customer_id t := by
      intro e1; subst e1; rw [hhas] at hc1; contradiction
    rw [Function.update_noteq hne]
    exact h.unassigned c1 hc1
  · intro c1 hc1
    rw [hcpc, hev] at hc1
    rw [hmap]
    by_cases e1 : c1 = s.customer_id t
    · subst e1
      rw [Function.update_same] at hc1 ⊢
      rcases hc1 with hc1 | hc1
      · exact hA (Or.inr hc1)
      · exact hA (Or.inl (h.assigned _ (Or.inr hc1)))
    · rw [Function.update_noteq e1] at hc1 ⊢
      exact h.assigned c1 hc1
  · intro c1 hE
    rw [hcpc, hev] at hE
    by_cases e1 : c1 = s.customer_id t
    · subst e1
      exact ⟨t, by rw [hmap, Function.update_same, hm],
        by rw [htpc, Function.update_same]; exact hs1, by rw [hid]⟩
    · rw [Function.update_noteq e1] at hE
      obtain ⟨t1, a1, a2, a3⟩ := h.has_teller c1 hE
      have hne : t1 ≠ t := fun e2 => e1 (by rw [← a3, e2])
      exact ⟨t1, by rw [hmap, Function.update_noteq e1]; exact a1,
        by rw [htpc, Function.update_noteq hne]; exact a2, by rw [hid]; exact a3⟩

/-- A teller that serves nobody moves to another control point at which it serves nobody. -/
theorem core_teller_idle {s s1 : State} {t : Nat} (pc : TPC) (h : Core s)
    (hs : (s.tpc t).serving = false) (hs1 : pc.serving = false)
    (htpc : s1.tpc = Function.update s.tpc t pc) (hcpc : s1.cpc = s.cpc)
    (hev : s1.events = s.events) (hmap : s1.customer_teller_map = s.customer_teller_map)
    (hq : s1.customer_queue = s.customer_queue)
    (hid : s1.customer_id = s.customer_id) : Core s1 := by
  have hserv : ∀ t1, (Function.update s.tpc t pc t1).serving = true →
      (s.tpc t1).serving = true ∧ Function.update s.tpc t pc t1 = s.tpc t1 := by
    intro t1 h1
    by_cases e1 : t1 = t
    · subst e1; rw [Function.update_same, hs1] at h1; contradiction
    · rw [Function.update_noteq e1] at h1 ⊢; exact ⟨h1, rfl⟩
  constructor
  · rw [hcpc, hev]; exact h.flags
  · rw [hq]; exact h.queue_nodup
  · intro c1 hc1
    rw [hq] at hc1
    obtain ⟨q1, q2, q3, q4⟩ := h.queue_mem c1 hc1
    rw [hcpc, hev, hmap, hid, htpc]
    exact ⟨q1, q2, q3, fun t1 ht1 => q4 t1 (hserv t1 ht1).1⟩
  · intro t1 t2 h1 h2 h3
    rw [htpc] at h1 h2
    rw [hid] at h3
    exact h.uniq t1 t2 (hserv t1 h1).1 (hserv t2 h2).1 h3
  · intro t1 ht1
    rw [htpc] at ht1
    rw [htpc, hcpc, hev, hmap, hid, (hserv t1 ht1).2]
    exact h.teller t1 (hserv t1 ht1).1
  · rw [hcpc, hmap]; exact h.unassigned
  · rw [hcpc, hev, hmap]; exact h.assigned
  · intro c1 hE
    rw [hcpc, hev] at hE
    obtain ⟨t1, a1, a2, a3⟩ := h.has_teller c1 hE
    have hne : t1 ≠ t := by
      intro e2; rw [e2, hs] at a2; contradiction
    exact ⟨t1, by rw [hmap]; exact a1, by rw [htpc, Function.update_noteq hne]; exact a2,
      by rw [hid]; exact a3⟩

theorem queuePop_some {q rest : List Nat} {id : Nat} (h : queuePop q = (some id, rest)) :
    q = id :: rest := by
  cases q with
  | nil => simp [queuePop] at h
  | cons a l =>
    simp only [queuePop, Prod.mk.injEq, Option.some.injEq] at h
    rw [h.1, h.2]

theorem queuePop_none {q rest : List Nat} (h : queuePop q = (none, rest)) : q = [] := by
  cases q with
  | nil => rfl
  | cons a l => simp [queuePop] at h

/-- The teller `t` dequeues `id`. -/
theorem core_teller_pop {s s1 : State} {t id : Nat} {rest : List Nat} (h : Core s)
    (hs : (s.tpc t).serving = false) (hpop : s.customer_queue = id :: rest)
    (htpc : s1.tpc = Function.update s.tpc t .writeMap) (hcpc : s1.cpc = s.cpc)
    (hev : s1.events = s.events) (hmap : s1.customer_teller_map = s.customer_teller_map)
    (hq : s1.customer_queue = rest)
    (hid : s1.customer_id = Function.update s.customer_id t id) : Core s1 := by
  have hnd := h.queue_nodup
  rw [hpop, List.nodup_cons] at hnd
  obtain ⟨p1, p2, p3, p4⟩ := h.queue_mem id (by rw [hpop]; exact List.mem_cons_self _ _)
  have hserv : ∀ t1, t1 ≠ t → (Function.update s.tpc t .writeMap t1).serving = true →
      (s.tpc t1).serving = true := by
    intro t1 e1 h1
    rwa [Function.update_noteq e1] at h1
  constructor
  · rw [hcpc, hev]; exact h.flags
  · rw [hq]; exact hnd.2
  · intro c1 hc1
    rw [hq] at hc1
    obtain ⟨q1, q2, q3, q4⟩ := h.queue_mem c1 (by rw [hpop]; exact List.mem_cons_of_mem _ hc1)
    rw [hcpc, hev, hmap, hid, htpc]
    refine ⟨q1, q2, q3, fun t1 ht1 => ?_⟩
    by_cases e1 : t1 = t
    · subst e1
      rw [Function.update_same]
      intro e2; subst e2; exact hnd.1 hc1
    · rw [Function.update_noteq e1]
      exact q4 t1 (hserv t1 e1 ht1)
  · intro t1 t2 h1 h2 h3
    rw [htpc] at h1 h2
    rw [hid] at h3
    by_cases e1 : t1 = t <;> by_cases e2 : t2 = t
    · rw [e1, e2]
    · subst e1
      rw [Function.update_same, Function.update_noteq e2] at h3
      exact absurd h3.symm (p4 t2 (hserv t2 e2 h2))
    · subst e2
      rw [Function.update_same, Function.update_noteq e1] at h3
      exact absurd h3 (p4 t1 (hserv t1 e1 h1))
    · rw [Function.update_noteq e1, Function.update_noteq e2] at h3
      exact h.uniq t1 t2 (hserv t1 e1 h1) (hserv t2 e2 h2) h3
  · intro t1 ht1
    rw [htpc] at ht1
    rw [htpc, hcpc, hev, hmap, hid]
    by_cases e1 : t1 = t
    · subst e1
      simp only [Function.update_same, TellerOK]
      exact ⟨p1, p2, p3⟩
    · simp only [Function.update_noteq e1]
      exact h.teller t1 (hserv t1 e1 ht1)
  · rw [hcpc, hmap]; exact h.unassigned
  · rw [hcpc, hev, hmap]; exact h.assigned
  · intro c1 hE
    rw [hcpc, hev] at hE
    obtain ⟨t1, a1, a2, a3⟩ := h.has_teller c1 hE
    have hne : t1 ≠ t := by
      intro e2; rw [e2, hs] at a2; contradiction
    exact ⟨t1, by rw [hmap]; exact a1, by rw [htpc, Function.update_noteq hne]; exact a2,
      by rw [hid, Function.update_noteq hne]; exact a3⟩

/-- The teller `t` consumes `customer_left` and returns to the head of its loop. -/
theorem core_teller_finish {s s1 : State} {t : Nat} (e : CustomerEvents) (h : Core s)
    (hs : s.tpc t = .waitLeft)
    (htpc : s1.tpc = Function.update s.tpc t .loopHead) (hcpc : s1.cpc = s.cpc)
    (hev : s1.events = Function.update s.events (s.customer_id t) e)
    (hmap : s1.customer_teller_map = s.customer_teller_map)
    (hq : s1.customer_queue = s.customer_queue)
    (hid : s1.customer_id = s.customer_id)
    (hF : FlagsOK (s.cpc (s.customer_id t)) e)
    (hR : e.teller_ready_flag = (s.events (s.customer_id t)).teller_ready_flag)
    (hNE : ¬ Engaged (s.cpc (s.customer_id t)) e) : Core s1 := by
  have hst : (s.tpc t).serving = true := by rw [hs]; rfl
  have hcq : s.customer_id t ∉ s.customer_queue := fun hm => (h.queue_mem _ hm).2.2.2 t hst rfl
  have hother : ∀ t1, t1 ≠ t → (s.tpc t1).serving = true →
      s.customer_id t1 ≠ s.customer_id t := fun t1 hne h1 heq => hne (h.uniq t1 t h1 hst heq)
  have hserv : ∀ t1, (Function.update s.tpc t .loopHead t1).serving = true →
      t1 ≠ t ∧ (s.tpc t1).serving = true := by
    intro t1 h1
    by_cases e1 : t1 = t
    · subst e1; rw [Function.update_same] at h1; simp [TPC.serving] at h1
    · rw [Function.update_noteq e1] at h1; exact ⟨e1, h1⟩
  constructor
  · intro c1
    rw [hcpc, hev]
    by_cases e1 : c1 = s.customer_id t
    · subst e1; rw [Function.update_same]; exact hF
    · rw [Function.update_noteq e1]; exact h.flags c1
  · rw [hq]; exact h.queue_nodup
  · intro c1 hc1
    rw [hq] at hc1
    have hne : c1 ≠ s.customer_id t := fun e1 => hcq (e1 ▸ hc1)
    obtain ⟨q1, q2, q3, q4⟩ := h.queue_mem c1 hc1
    rw [hcpc, hev, hmap, hid, htpc]
    simp only [Function.update_noteq hne]
    exact ⟨q1, q2, q3, fun t1 ht1 => q4 t1 (hserv t1 ht1).2⟩
  · intro t1 t2 h1 h2 h3
    rw [htpc] at h1 h2
    rw [hid] at h3
    exact h.uniq t1 t2 (hserv t1 h1).2 (hserv t2 h2).2 h3
  · intro t1 ht1
    rw [htpc] at ht1
    obtain ⟨e1, h1⟩ := hserv t1 ht1
    have hne := hother t1 e1 h1
    rw [htpc, hcpc, hev, hmap, hid]
    simp only [Function.update_noteq e1, Function.update_noteq hne]
    exact h.teller t1 h1
  · rw [hcpc, hmap]; exact h.unassigned
  · intro c1 hc1
    rw [hcpc, hev] at hc1
    rw [hmap]
    by_cases e1 : c1 = s.customer_id t
    · subst e1
      rw [Function.update_same, hR] at hc1
      exact h.assigned _ hc1
    · rw [Function.update_noteq e1] at hc1
      exact h.assigned c1 hc1
  · intro c1 hE
    rw [hcpc, hev] at hE
    by_cases e1 : c1 = s.customer_id t
    · subst e1
      rw [Function.update_same] at hE
      exact absurd hE hNE
    · rw [Function.update_noteq e1] at hE
      obtain ⟨t1, a1, a2, a3⟩ := h.has_teller c1 hE
      have hne : t1 ≠ t := fun e2 => e1 (by rw [← a3, e2])
      exact ⟨t1, by rw [hmap]; exact a1, by rw [htpc, Function.update_noteq hne]; exact a2,
        by rw [hid]; exact a3⟩

set_option maxHeartbeats 2000000 in
theorem core_teller_thread (s : State) (t : Nat) (h : Core s) : Core (teller_thread s t) := by
  have hTt := h.teller t
  have hFt := h.flags (s.customer_id t)
  unfold teller_thread
  split
  all_goals
    rename_i heq
    simp only [heq, TPC.serving, TellerOK, true_implies] at hTt
  all_goals try dsimp only
  -- start
  · split_ifs
    · exact h
    · exact core_teller_idle .incReady h (by rw [heq]; rfl) rfl rfl rfl rfl rfl rfl rfl
  -- incReady
  · exact core_teller_idle .logReady h (by rw [heq]; rfl) rfl rfl rfl rfl rfl rfl rfl
  -- logReady
  · exact core_teller_idle .testOpen h (by rw [heq]; rfl) rfl rfl rfl rfl rfl rfl rfl
  -- testOpen
  · split_ifs
    · exact core_teller_idle .unlockReady h (by rw [heq]; rfl) rfl rfl rfl rfl rfl rfl rfl
    · exact core_teller_idle .unlockReady h (by rw [heq]; rfl) rfl rfl rfl rfl rfl rfl rfl
  -- unlockReady
  · exact core_teller_idle .loopHead h (by rw [heq]; rfl) rfl rfl rfl rfl rfl rfl rfl
  -- loopHead
  · split_ifs
    · exact core_teller_idle .exited h (by rw [heq]; rfl) rfl rfl rfl rfl rfl rfl rfl
    · exact core_teller_idle .waitQueue h (by rw [heq]; rfl) rfl rfl rfl rfl rfl rfl rfl
  -- waitQueue
  · split
    · rename_i hp
      exact core_teller_pop h (by rw [heq]; rfl) (queuePop_some hp) rfl rfl rfl rfl rfl rfl
    · exact core_teller_idle .loopHead h (by rw [heq]; rfl) rfl rfl rfl rfl rfl rfl rfl
  -- writeMap
  · exact core_teller_update .getEvents (s.events (s.customer_id t)) (some t) h
      (by rw [heq]; rfl) rfl rfl rfl (by simp [setT]) rfl rfl rfl hFt
      (by simp [TellerOK, hTt]) (by simp) rfl
  -- getEvents
  · split_ifs
    · exact core_teller_update .signalReady (s.events (s.customer_id t))
        (s.customer_teller_map (s.customer_id t)) h
        (by rw [heq]; rfl) rfl rfl rfl (by simp [setT]) (by simp [setT]) rfl rfl hFt
        (by simp [TellerOK, hTt]) (by simp [hTt.2.2]) (by simp [hTt])
    · exact core_teller_update .fault (s.events (s.customer_id t))
        (s.customer_teller_map (s.customer_id t)) h
        (by rw [heq]; rfl) rfl rfl rfl (by simp [setT]) (by simp [setT]) rfl rfl hFt
        (by simp [TellerOK, hTt]) (by simp [hTt.2.2]) (by simp [hTt])
  -- signalReady
  · rw [hTt.1] at hFt
    simp only [FlagsOK] at hFt
    exact core_teller_update .waitGiven _ (s.customer_teller_map (s.customer_id t)) h
      (by rw [heq]; rfl) rfl rfl rfl rfl (by simp [setT, updEvents]) rfl rfl
      (by simp [FlagsOK, hTt, hFt]) (by simp [TellerOK, hTt]) (by simp [hTt.2.2])
        (by simp [hTt])
  -- waitGiven
  · split_ifs with hg
    · have hc : s.cpc (s.customer_id t) = .waitComplete := by
        rcases hTt.2 with h1 | h1 | h1 | h1
        · rw [h1.1] at hFt; simp [FlagsOK, hg] at hFt
        · rw [h1] at hFt; simp [FlagsOK, hg] at hFt
        · rw [h1] at hFt; simp [FlagsOK, hg] at hFt
        · exact h1.1
      rw [hc] at hFt
      simp only [FlagsOK] at hFt
      exact core_teller_update .readType _ (s.customer_teller_map (s.customer_id t)) h
        (by rw [heq]; rfl) rfl rfl rfl rfl (by simp [setT, updEvents]) rfl rfl
        (by simp [FlagsOK, hc, hFt]) (by simp [TellerOK, hTt, hc, hFt, hg])
        (by simp [hTt.1]) (by simp [hTt])
    · exact h
  -- readType
  · split_ifs
    · exact core_teller_update .managerAcquire (s.events (s.customer_id t))
        (s.customer_teller_map (s.customer_id t)) h
        (by rw [heq]; rfl) rfl rfl rfl (by simp [setT]) (by simp [setT]) rfl rfl hFt
        (by simp [TellerOK, hTt]) (by simp [hTt.1]) (by simp [hTt])
    · exact core_teller_update .safeAcquire (s.events (s.customer_id t))
        (s.customer_teller_map (s.customer_id t)) h
        (by rw [heq]; rfl) rfl rfl rfl (by simp [setT]) (by simp [setT]) rfl rfl hFt
        (by simp [TellerOK, hTt]) (by simp [hTt.1]) (by simp [hTt])
  -- managerAcquire
  · split
    · exact core_teller_update .inManager (s.events (s.customer_id t))
        (s.customer_teller_map (s.customer_id t)) h
        (by rw [heq]; rfl) rfl rfl rfl (by simp [setT]) (by simp [setT]) rfl rfl hFt
        (by simp [TellerOK, hTt]) (by simp [hTt.1]) (by simp [hTt])
    · exact h
  -- inManager
  · exact core_teller_update .safeAcquire (s.events (s.customer_id t))
        (s.customer_teller_map (s.customer_id t)) h
        (by rw [heq]; rfl) rfl rfl rfl (by simp [setT]) (by simp [setT]) rfl rfl hFt
        (by simp [TellerOK, hTt]) (by simp [hTt.1]) (by simp [hTt])
  -- safeAcquire
  · split
    · exact core_teller_update .inSafe (s.events (s.customer_id t))
        (s.customer_teller_map (s.customer_id t)) h
        (by rw [heq]; rfl) rfl rfl rfl (by simp [setT]) (by simp [setT]) rfl rfl hFt
        (by simp [TellerOK, hTt]) (by simp [hTt.1]) (by simp [hTt])
    · exact h
  -- inSafe
  · exact core_teller_update .signalComplete (s.events (s.customer_id t))
        (s.customer_teller_map (s.customer_id t)) h
        (by rw [heq]; rfl) rfl rfl rfl (by simp [setT]) (by simp [setT]) rfl rfl hFt
        (by simp [TellerOK, hTt]) (by simp [hTt.1]) (by simp [hTt])
  -- signalComplete
  · rw [hTt.2.1] at hFt
    simp only [FlagsOK] at hFt
    exact core_teller_update .waitLeft _ (s.customer_teller_map (s.customer_id t)) h
      (by rw [heq]; rfl) rfl rfl rfl rfl (by simp [setT, updEvents]) rfl rfl
      (by simp [FlagsOK, hTt, hFt]) (by simp [TellerOK, hTt]) (by simp [hTt.1])
        (by simp [hTt])
  -- waitLeft
  · split_ifs with hg
    · have hc : s.cpc (s.customer_id t) = .incServed ∨ s.cpc (s.customer_id t) = .done := by
        rcases hTt.2 with h1 | h1 | h1
        · rw [h1.1] at hFt; simp [FlagsOK, hg] at hFt
        · rw [h1] at hFt; simp [FlagsOK, hg] at hFt
        · exact h1.1
      refine core_teller_finish _ h heq rfl rfl rfl rfl rfl rfl ?_ rfl ?_
      · rcases hc with hc | hc <;> rw [hc] at hFt ⊢ <;> simpa [FlagsOK] using hFt
      · rcases hc with hc | hc <;> rw [hc] at hFt ⊢ <;> simp [FlagsOK] at hFt <;>
          simp [Engaged, hFt]
    · exact h
  -- exited
  · exact h
  -- fault
  · exact core_segfault s h

/-- A customer that is not in the queue moves to `pc`, leaving `e` in its object. -/
theorem core_customer_update {s s1 : State} {c : Nat} (pc : CPC) (e : CustomerEvents)
    (h : Core s) (hcq : c ∉ s.customer_queue)
    (hcpc : s1.cpc = Function.update s.cpc c pc)
    (hev : s1.events = Function.update s.events c e)
    (hmap : s1.customer_teller_map = s.customer_teller_map)
    (hq : s1.customer_queue = s.customer_queue) (htpc : s1.tpc = s.tpc)
    (hid : s1.customer_id = s.customer_id)
    (hF : FlagsOK pc e)
    (hM : pc.pushed = false → s.customer_teller_map c = none)
    (hT : ∀ t, (s.tpc t).serving = true → s.customer_id t = c →
      TellerOK t (s.tpc t) pc e (s.customer_teller_map c))
    (hA : (e.teller_ready_flag = true ∨ pc.pastReady = true) →
      (s.customer_teller_map c).isSome = true)
    (hE : Engaged pc e → Engaged (s.cpc c) (s.events c)) : Core s1 := by
  constructor
  · intro c1
    rw [hcpc, hev]
    by_cases e1 : c1 = c
    · subst e1; simp only [Function.update_same]; exact hF
    · simp only [Function.update_noteq e1]; exact h.flags c1
  · rw [hq]; exact h.queue_nodup
  · intro c1 hc1
    rw [hq] at hc1
    have hne : c1 ≠ c := fun e1 => hcq (e1 ▸ hc1)
    rw [hcpc, hev, hmap, hid, htpc]
    simp only [Function.update_noteq hne]
    exact h.queue_mem c1 hc1
  · rw [htpc, hid]; exact h.uniq
  · intro t1 ht1
    rw [htpc] at ht1
    rw [htpc, hcpc, hev, hmap, hid]
    by_cases e1 : s.customer_id t1 = c
    · rw [e1, Function.update_same, Function.update_same]; exact hT t1 ht1 e1
    · simp only [Function.update_noteq e1]; exact h.teller t1 ht1
  · intro c1 hc1
    rw [hcpc] at hc1
    rw [hmap]
    by_cases e1 : c1 = c
    · subst e1; rw [Function.update_same] at hc1; exact hM hc1
    · rw [Function.update_noteq e1] at hc1; exact h.unassigned c1 hc1
  · intro c1 hc1
    rw [hcpc, hev] at hc1
    rw [hmap]
    by_cases e1 : c1 = c
    · subst e1; simp only [Function.update_same] at hc1; exact hA hc1
    · simp only [Function.update_noteq e1] at hc1; exact h.assigned c1 hc1
  · intro c1 hE1
    rw [hcpc, hev] at hE1
    rw [hmap, htpc, hid]
    by_cases e1 : c1 = c
    · subst e1
      simp only [Function.update_same] at hE1
      exact h.has_teller c1 (hE hE1)
    · simp only [Function.update_noteq e1] at hE1
      exact h.has_teller c1 hE1

/-- The customer `c` pushes itself onto the queue. -/
theorem core_customer_push {s s1 : State} {c : Nat} (h : Core s) (hpc : s.cpc c = .pushQueue)
    (hcpc : s1.cpc = Function.update s.cpc c .waitTellerReady)
    (hev : s1.events = s.events)
    (hmap : s1.customer_teller_map = s.customer_teller_map)
    (hq : s1.customer_queue = queuePush s.customer_queue c) (htpc : s1.tpc = s.tpc)
    (hid : s1.customer_id = s.customer_id) : Core s1 := by
  have hcq : c ∉ s.customer_queue := by
    intro hm
    have := (h.queue_mem c hm).1
    rw [hpc] at this; contradiction
  have hF := h.flags c
  rw [hpc] at hF
  simp only [FlagsOK] at hF
  have hno : ∀ t, (s.tpc t).serving = true → s.customer_id t ≠ c := by
    intro t ht e1
    have := (h.teller t ht).pushed ht
    rw [e1, hpc] at this; contradiction
  constructor
  · intro c1
    rw [hcpc, hev]
    by_cases e1 : c1 = c
    · subst e1; simp only [Function.update_same, FlagsOK]; exact hF.2
    · simp only [Function.update_noteq e1]; exact h.flags c1
  · rw [hq, queuePush]
    exact List.Nodup.append h.queue_nodup (List.nodup_singleton c) (by simpa using hcq)
  · intro c1 hc1
    rw [hq, queuePush, List.mem_append, List.mem_singleton] at hc1
    rw [hcpc, hev, hmap, hid, htpc]
    by_cases e1 : c1 = c
    · subst e1
      simp only [Function.update_same]
      exact ⟨trivial, hF.1, h.unassigned c1 (by rw [hpc]; rfl), hno⟩
    · simp only [Function.update_noteq e1]
      exact h.queue_mem c1 (hc1.resolve_right e1)
  · rw [htpc, hid]; exact h.uniq
  · intro t1 ht1
    rw [htpc] at ht1
    rw [htpc, hcpc, hev, hmap, hid]
    simp only [Function.update_noteq (hno t1 ht1)]
    exact h.teller t1 ht1
  · intro c1 hc1
    rw [hcpc] at hc1
    rw [hmap]
    by_cases e1 : c1 = c
    · subst e1; rw [Function.update_same] at hc1; simp [CPC.pushed] at hc1
    · rw [Function.update_noteq e1] at hc1; exact h.unassigned c1 hc1
  · intro c1 hc1
    rw [hcpc, hev] at hc1
    rw [hmap]
    by_cases e1 : c1 = c
    · subst e1
      simp only [Function.update_same, CPC.pastReady, hF.1] at hc1
      simp at hc1
    · simp only [Function.update_noteq e1] at hc1; exact h.assigned c1 hc1
  · intro c1 hE1
    rw [hcpc, hev] at hE1
    rw [hmap, htpc, hid]
    by_cases e1 : c1 = c
    · subst e1
      simp only [Function.update_same] at hE1
      simp [Engaged, hF] at hE1
    · simp only [Function.update_noteq e1] at hE1
      exact h.has_teller c1 hE1

theorem mapRead_of_isSome {m : Nat → Option Nat} {k : Nat} (h : (m k).isSome = true) :
    (mapRead m k).2 = m ∧ m k = some (mapRead m k).1 := by
  unfold mapRead
  cases hk : m k with
  | none => rw [hk] at h; contradiction
  | some v => exact ⟨rfl, rfl⟩

set_option maxHeartbeats 2000000 in
theorem core_customer_thread (env : Env) (s : State) (c : Nat) (h : Core s) :
    Core (customer_thread env s c) := by
  have hFc := h.flags c
  have hTc : ∀ t, (s.tpc t).serving = true → s.customer_id t = c →
      TellerOK t (s.tpc t) (s.cpc c) (s.events c) (s.customer_teller_map c) := by
    intro t ht e1
    have := h.teller t ht
    rwa [e1] at this
  have hearly : (s.cpc c).pushed = false → ∀ t, (s.tpc t).serving = true →
      s.customer_id t = c → False := by
    intro hp t ht e1
    have := (hTc t ht e1).pushed ht
    rw [hp] at this; contradiction
  have hnq : s.cpc c ≠ .waitTellerReady → c ∉ s.customer_queue :=
    fun hne hm => hne (h.queue_mem c hm).1
  unfold customer_thread
  split
  all_goals
    rename_i heq
    simp only [heq, FlagsOK] at hFc
    simp only [heq] at hTc
    simp only [heq, CPC.pushed, true_implies, false_implies, ne_eq, reduceCtorEq,
      not_false_eq_true, not_true_eq_false] at hearly hnq
  all_goals try dsimp only
  -- start
  · exact core_customer_update .waitOpen (s.events c) h hnq rfl
      (by simp [setC]) rfl rfl rfl rfl (by simpa [FlagsOK] using hFc)
      (fun _ => h.unassigned c (by rw [heq]; rfl))
      (fun t ht e1 => (hearly t ht e1).elim) (by simp [CPC.pastReady, hFc])
        (by simp [Engaged, hFc])
  -- waitOpen
  · split_ifs
    · exact core_customer_update .doorAcquire (s.events c) h hnq rfl
        (by simp [setC]) rfl rfl rfl rfl (by simpa [FlagsOK] using hFc)
        (fun _ => h.unassigned c (by rw [heq]; rfl))
        (fun t ht e1 => (hearly t ht e1).elim) (by simp [CPC.pastReady, hFc])
        (by simp [Engaged, hFc])
    · exact h
  -- doorAcquire
  · split
    · exact core_customer_update .inDoor (s.events c) h hnq rfl
        (by simp [setC]) rfl rfl rfl rfl (by simpa [FlagsOK] using hFc)
        (fun _ => h.unassigned c (by rw [heq]; rfl))
        (fun t ht e1 => (hearly t ht e1).elim) (by simp [CPC.pastReady, hFc])
        (by simp [Engaged, hFc])
    · exact h
  -- inDoor
  · exact core_customer_update .createEvents (s.events c) h hnq rfl
      (by simp [setC]) rfl rfl rfl rfl (by simpa [FlagsOK] using hFc)
      (fun _ => h.unassigned c (by rw [heq]; rfl))
      (fun t ht e1 => (hearly t ht e1).elim) (by simp [CPC.pastReady, hFc])
        (by simp [Engaged, hFc])
  -- createEvents
  · exact core_customer_update .pushQueue _ h hnq rfl rfl rfl rfl rfl rfl
      (by simp [FlagsOK, CustomerEvents.fresh])
      (fun _ => h.unassigned c (by rw [heq]; rfl))
      (fun t ht e1 => (hearly t ht e1).elim) (by simp [CPC.pastReady, CustomerEvents.fresh])
      (by simp [Engaged, CustomerEvents.fresh])
  -- pushQueue
  · exact core_customer_push h heq rfl rfl rfl rfl rfl rfl
  -- waitTellerReady
  · split_ifs with hg
    · have hq : c ∉ s.customer_queue := by
        intro hm
        have := (h.queue_mem c hm).2.1
        rw [hg] at this; contradiction
      exact core_customer_update .readMap _ h hq rfl rfl
        rfl rfl rfl rfl (by simp [FlagsOK, hFc])
        (by simp [CPC.pushed])
        (by
          intro t ht e1
          have h1 := hTc t ht e1
          generalize s.tpc t = p at h1 ht
          cases p <;> simp_all [TellerOK, TPC.serving])
        (fun _ => h.assigned c (Or.inl hg)) (by simp [Engaged, heq, hg])
    · exact h
  -- readMap
  · have ha := h.assigned c (Or.inr (by rw [heq]; rfl))
    exact core_customer_update .giveTransaction (s.events c) h hnq rfl
      (by simp [setC]) (mapRead_of_isSome ha).1 rfl rfl rfl
      (by simpa [FlagsOK] using hFc) (by simp [CPC.pushed])
      (by
          intro t ht e1
          have h1 := hTc t ht e1
          generalize s.tpc t = p at h1 ht
          cases p <;> simp_all [TellerOK, TPC.serving])
      (fun _ => ha) (by simp [Engaged, heq, hFc])
  -- giveTransaction
  · have ha := h.assigned c (Or.inr (by rw [heq]; rfl))
    exact core_customer_update .waitComplete _ h hnq rfl rfl
      rfl rfl rfl rfl (by simp [FlagsOK, hFc])
      (by simp [CPC.pushed])
      (by
          intro t ht e1
          have h1 := hTc t ht e1
          generalize s.tpc t = p at h1 ht
          cases p <;> simp_all [TellerOK, TPC.serving])
      (fun _ => ha) (by simp [Engaged, heq, hFc])
  -- waitComplete
  · split_ifs with hg
    · have ha := h.assigned c (Or.inr (by rw [heq]; rfl))
      have hgiven : (s.events c).transaction_given_flag = false := by
        cases hx : (s.events c).transaction_given_flag
        · rfl
        · have := hFc.2.2 hx
          rw [hg] at this; contradiction
      exact core_customer_update .signalLeft _ h hnq rfl rfl
        rfl rfl rfl rfl (by simp [FlagsOK, hFc, hgiven])
        (by simp [CPC.pushed])
        (by
          intro t ht e1
          have h1 := hTc t ht e1
          generalize s.tpc t = p at h1 ht
          cases p <;> simp_all [TellerOK, TPC.serving])
        (fun _ => ha) (by simp [Engaged, heq, hFc])
    · exact h
  -- signalLeft
  · have ha := h.assigned c (Or.inr (by rw [heq]; rfl))
    exact core_customer_update .incServed _ h hnq rfl rfl
      rfl rfl rfl rfl (by simp [FlagsOK, hFc])
      (by simp [CPC.pushed])
      (by
          intro t ht e1
          have h1 := hTc t ht e1
          generalize s.tpc t = p at h1 ht
          cases p <;> simp_all [TellerOK, TPC.serving])
      (fun _ => ha) (by simp [Engaged, heq, hFc])
  -- incServed
  · have ha := h.assigned c (Or.inr (by rw [heq]; rfl))
    exact core_customer_update .done (s.events c) h hnq rfl
      (by simp [setC]) rfl rfl rfl rfl
      (by simpa [FlagsOK] using hFc) (by simp [CPC.pushed])
      (by
          intro t ht e1
          have h1 := hTc t ht e1
          generalize s.tpc t = p at h1 ht
          cases p <;> simp_all [TellerOK, TPC.serving])
      (fun _ => ha) (by simp [Engaged, heq, hFc])
  -- done
  · exact h

theorem core_step (env : Env) (s : State) (w : Worker) (h : Core s) :
    Core (step env s w) :=
  step_cases Core env s w h (fun t _ => core_teller_thread s t h)
    (fun c _ => core_customer_thread env s c h)

theorem core_run (env : Env) (sched : List Worker) : Core (run env sched) :=
  run_induction Core env core_init (fun s w h => core_step env s w h) sched

theorem pops_append (c : Nat) (a b : List Event) : pops c (a ++ b) = pops c a ++ pops c b := by
  simp [pops, List.filterMap_append]

theorem mapWrites_append (c : Nat) (a b : List Event) :
    mapWrites c (a ++ b) = mapWrites c a ++ mapWrites c b := by
  simp [mapWrites, List.filterMap_append]

theorem handshake_append (c : Nat) (a b : List Event) :
    handshake c (a ++ b) = handshake c a ++ handshake c b := by
  simp [handshake, List.filter_append]

theorem tellerGateOps_append (c : Nat) (a b : List Event) :
    tellerGateOps c (a ++ b) = tellerGateOps c a ++ tellerGateOps c b := by
  simp [tellerGateOps, List.filterMap_append]

theorem hist_init : Hist init := by
  constructor <;>
    simp [init, pops, mapWrites, handshake, tellerGateOps, hsCount, TPC.serving, CPC.pushed]

/-- The history facts do not mention `segfault`. -/
theorem hist_segfault (s : State) (h : Hist s) : Hist { s with segfault := true } :=
  ⟨h.not_popped, h.popped_by, h.mapped, h.unmapped, h.handshake, h.gates, h.gates_done,
    h.at_most_once⟩

/-- A step that changes no customer, no queue, no map and no serving teller, and records only
lock operations, keeps the history facts. -/
theorem hist_quiet {s s1 : State} {evs : List Event} (h : Hist s)
    (htr : s1.trace = s.trace ++ evs) (hquiet : Quiet evs)
    (hcpc : s1.cpc = s.cpc) (hev : s1.events = s.events)
    (hmap : s1.customer_teller_map = s.customer_teller_map)
    (hq : s1.customer_queue = s.customer_queue)
    (hserv : ∀ t, (s1.tpc t).serving = true →
      (s.tpc t).serving = true ∧ s1.tpc t = s.tpc t ∧ s1.customer_id t = s.customer_id t) :
    Hist s1 := by
  have e1 : ∀ c, pops c s1.trace = pops c s.trace := by
    intro c; rw [htr, pops_append, (hquiet c).1, List.append_nil]
  have e2 : ∀ c, mapWrites c s1.trace = mapWrites c s.trace := by
    intro c; rw [htr, mapWrites_append, (hquiet c).2.1, List.append_nil]
  have e3 : ∀ c, Bank.handshake c s1.trace = Bank.handshake c s.trace := by
    intro c; rw [htr, handshake_append, (hquiet c).2.2.1, List.append_nil]
  have e4 : ∀ c, tellerGateOps c s1.trace = tellerGateOps c s.trace := by
    intro c; rw [htr, tellerGateOps_append, (hquiet c).2.2.2, List.append_nil]
  constructor
  · intro c hc
    rw [hcpc, hq] at hc
    rw [e1, e4]; exact h.not_popped c hc
  · intro t ht
    obtain ⟨a1, _, a3⟩ := hserv t ht
    rw [e1, a3]; exact h.popped_by t a1
  · intro c t hc
    rw [hmap] at hc
    rw [e1, e2]; exact h.mapped c t hc
  · intro c hc
    rw [hmap] at hc
    rw [e2]; exact h.unmapped c hc
  · intro c
    rw [e3, hmap, hcpc, hev]; exact h.handshake c
  · intro t ht
    obtain ⟨a1, a2, a3⟩ := hserv t ht
    rw [e4, a2, a3, hev]; exact h.gates t a1
  · intro c hc
    rw [hcpc, hev] at hc
    rw [e4, hev]; exact h.gates_done c hc
  · intro c
    rw [e1]; exact h.at_most_once c

/-- History facts after a serving teller moved on with the same customer. -/
theorem hist_teller_update {s s1 : State} {t : Nat} (pc : TPC) (e : CustomerEvents)
    (m : Option Nat) (evs : List Event) (hc : Core s) (h : Hist s)
    (hs : (s.tpc t).serving = true)
    (htr : s1.trace = s.trace ++ evs)
    (htpc : s1.tpc = Function.update s.tpc t pc) (hcpc : s1.cpc = s.cpc)
    (hev : s1.events = Function.update s.events (s.customer_id t) e)
    (hmap : s1.customer_teller_map =
      Function.update s.customer_teller_map (s.customer_id t) m)
    (hq : s1.customer_queue = s.customer_queue)
    (hid : s1.customer_id = s.customer_id)
    (hm : m = some t)
    (hmold : s.customer_teller_map (s.customer_id t) = some t ∨
      hsCount (s.cpc (s.customer_id t)) (s.events (s.customer_id t)) = 0)
    (hP : ∀ c1, pops c1 evs = [])
    (hW : ∀ c1, c1 ≠ s.customer_id t → mapWrites c1 evs = [])
    (hWc : mapWrites (s.customer_id t) s.trace ++ mapWrites (s.customer_id t) evs = [t])
    (hHo : ∀ c1, c1 ≠ s.customer_id t → handshake c1 evs = [])
    (hH : (protocol t (s.customer_id t)).take
        (hsCount (s.cpc (s.customer_id t)) (s.events (s.customer_id t))) ++
      handshake (s.customer_id t) evs =
        (protocol t (s.customer_id t)).take (hsCount (s.cpc (s.customer_id t)) e))
    (hGo : ∀ c1, c1 ≠ s.customer_id t → tellerGateOps c1 evs = [])
    (hG : GateOK pc e.transaction_type
      (tellerGateOps (s.customer_id t) s.trace ++ tellerGateOps (s.customer_id t) evs))
    (h5 : 5 ≤ hsCount (s.cpc (s.customer_id t)) e → pc = .signalComplete ∨ pc = .waitLeft) :
    Hist s1 := by
  have hcq : s.customer_id t ∉ s.customer_queue :=
    fun hm1 => (hc.queue_mem _ hm1).2.2.2 t hs rfl
  have hpu := (hc.teller t hs).pushed hs
  have hother : ∀ t1, t1 ≠ t → (s.tpc t1).serving = true →
      s.customer_id t1 ≠ s.customer_id t :=
    fun t1 hne hst heq => hne (hc.uniq t1 t hst hs heq)
  have hserv : ∀ t1, (Function.update s.tpc t pc t1).serving = true →
      (s.tpc t1).serving = true := by
    intro t1 h1
    by_cases e1 : t1 = t
    · subst e1; exact hs
    · rwa [Function.update_noteq e1] at h1
  have e1 : ∀ c, pops c s1.trace = pops c s.trace := by
    intro c; rw [htr, pops_append, hP c, List.append_nil]
  have e2 : ∀ c, c ≠ s.customer_id t → mapWrites c s1.trace = mapWrites c s.trace := by
    intro c hne; rw [htr, mapWrites_append, hW c hne, List.append_nil]
  have e3 : ∀ c, c ≠ s.customer_id t →
      Bank.handshake c s1.trace = Bank.handshake c s.trace := by
    intro c hne; rw [htr, handshake_append, hHo c hne, List.append_nil]
  have e4 : ∀ c, c ≠ s.customer_id t → tellerGateOps c s1.trace = tellerGateOps c s.trace := by
    intro c hne; rw [htr, tellerGateOps_append, hGo c hne, List.append_nil]
  constructor
  · intro c hc1
    rw [hcpc, hq] at hc1
    have hne : c ≠ s.customer_id t := by
      intro e5; subst e5
      rcases hc1 with hc1 | hc1
      · rw [hpu] at hc1; contradiction
      · exact hcq hc1
    rw [e1, e4 c hne]; exact h.not_popped c hc1
  · intro t1 ht1
    rw [htpc] at ht1
    rw [e1, hid]; exact h.popped_by t1 (hserv t1 ht1)
  · intro c t1 hc1
    rw [hmap] at hc1
    by_cases e5 : c = s.customer_id t
    · subst e5
      rw [Function.update_same, hm] at hc1
      cases hc1
      rw [e1, htr, mapWrites_append]
      exact ⟨h.popped_by t hs, hWc⟩
    · rw [Function.update_noteq e5] at hc1
      rw [e1, e2 c e5]; exact h.mapped c t1 hc1
  · intro c hc1
    rw [hmap] at hc1
    by_cases e5 : c = s.customer_id t
    · subst e5
      rw [Function.update_same, hm] at hc1
      contradiction
    · rw [Function.update_noteq e5] at hc1
      rw [e2 c e5]; exact h.unmapped c hc1
  · intro c
    rw [hmap, hcpc, hev]
    by_cases e5 : c = s.customer_id t
    · subst e5
      simp only [Function.update_same, hm, Option.getD_some]
      rw [htr, handshake_append, ← hH, h.handshake]
      rcases hmold with h6 | h6
      · rw [h6, Option.getD_some]
      · rw [h6, List.take_zero, List.take_zero]
    · simp only [Function.update_noteq e5]
      rw [e3 c e5]; exact h.handshake c
  · intro t1 ht1
    rw [htpc] at ht1
    rw [htpc, hev, hid]
    by_cases e5 : t1 = t
    · subst e5
      simp only [Function.update_same]
      rw [htr, tellerGateOps_append]; exact hG
    · have hne := hother t1 e5 (hserv t1 ht1)
      simp only [Function.update_noteq e5, Function.update_noteq hne]
      rw [e4 _ hne]; exact h.gates t1 (hserv t1 ht1)
  · intro c hc1
    rw [hcpc, hev] at hc1
    rw [hev]
    by_cases e5 : c = s.customer_id t
    · subst e5
      simp only [Function.update_same] at hc1 ⊢
      rw [htr, tellerGateOps_append]
      rcases h5 hc1 with h6 | h6 <;> rw [h6] at hG <;> exact hG
    · simp only [Function.update_noteq e5] at hc1 ⊢
      rw [e4 c e5]; exact h.gates_done c hc1
  · intro c
    rw [e1]; exact h.at_most_once c

theorem hsCount_pushed {pc : CPC} {e : CustomerEvents} (h : 1 ≤ hsCount pc e) :
    pc.pushed = true := by
  cases pc <;> simp [hsCount] at h <;> rfl

/-- History facts after a teller dequeued `id`. -/
theorem hist_teller_pop {s s1 : State} {t id : Nat} {rest : List Nat} (evs : List Event)
    (hc : Core s) (h : Hist s)
    (hs : (s.tpc t).serving = false) (hpop : s.customer_queue = id :: rest)
    (htr : s1.trace = s.trace ++ evs)
    (htpc : s1.tpc = Function.update s.tpc t .writeMap) (hcpc : s1.cpc = s.cpc)
    (hev : s1.events = s.events) (hmap : s1.customer_teller_map = s.customer_teller_map)
    (hq : s1.customer_queue = rest)
    (hid : s1.customer_id = Function.update s.customer_id t id)
    (hP : ∀ c1, pops c1 evs = if c1 = id then [t] else [])
    (hW : ∀ c1, mapWrites c1 evs = []) (hH : ∀ c1, handshake c1 evs = [])
    (hG : ∀ c1, tellerGateOps c1 evs = []) : Hist s1 := by
  have hnd := hc.queue_nodup
  rw [hpop, List.nodup_cons] at hnd
  have hidq : id ∈ s.customer_queue := by rw [hpop]; exact List.mem_cons_self _ _
  obtain ⟨p1, p2, p3, p4⟩ := hc.queue_mem id hidq
  have hold := h.not_popped id (Or.inr hidq)
  have hserv : ∀ t1, t1 ≠ t → (Function.update s.tpc t .writeMap t1).serving = true →
      (s.tpc t1).serving = true := by
    intro t1 e1 h1
    rwa [Function.update_noteq e1] at h1
  have e1 : ∀ c, c ≠ id → pops c s1.trace = pops c s.trace := by
    intro c hne; rw [htr, pops_append, hP c, if_neg hne, List.append_nil]
  have e2 : ∀ c, mapWrites c s1.trace = mapWrites c s.trace := by
    intro c; rw [htr, mapWrites_append, hW c, List.append_nil]
  have e3 : ∀ c, Bank.handshake c s1.trace = Bank.handshake c s.trace := by
    intro c; rw [htr, handshake_append, hH c, List.append_nil]
  have e4 : ∀ c, tellerGateOps c s1.trace = tellerGateOps c s.trace := by
    intro c; rw [htr, tellerGateOps_append, hG c, List.append_nil]
  constructor
  · intro c hc1
    rw [hcpc, hq] at hc1
    have hne : c ≠ id := by
      intro e5; subst e5
      rcases hc1 with hc1 | hc1
      · rw [p1] at hc1; simp [CPC.pushed] at hc1
      · exact hnd.1 hc1
    rw [e1 c hne, e4]
    refine h.not_popped c (hc1.imp (fun x => x) fun hm => ?_)
    rw [hpop]; exact List.mem_cons_of_mem _ hm
  · intro t1 ht1
    rw [htpc] at ht1
    rw [hid]
    by_cases e5 : t1 = t
    · subst e5
      rw [Function.update_same, htr, pops_append, hP, if_pos rfl, hold.1, List.nil_append]
    · rw [Function.update_noteq e5]
      have hne := p4 t1 (hserv t1 e5 ht1)
      rw [e1 _ hne]; exact h.popped_by t1 (hserv t1 e5 ht1)
  · intro c t1 hc1
    rw [hmap] at hc1
    have hne : c ≠ id := by
      intro e5; subst e5; rw [p3] at hc1; contradiction
    rw [e1 c hne, e2]; exact h.mapped c t1 hc1
  · intro c hc1
    rw [hmap] at hc1
    rw [e2]; exact h.unmapped c hc1
  · intro c
    rw [e3, hmap, hcpc, hev]; exact h.handshake c
  · intro t1 ht1
    rw [htpc] at ht1
    rw [htpc, hev, hid, e4]
    by_cases e5 : t1 = t
    · subst e5
      simp only [Function.update_same, GateOK]
      exact hold.2
    · simp only [Function.update_noteq e5]
      exact h.gates t1 (hserv t1 e5 ht1)
  · intro c hc1
    rw [hcpc, hev] at hc1
    rw [e4, hev]; exact h.gates_done c hc1
  · intro c
    by_cases e5 : c = id
    · subst e5
      rw [htr, pops_append, hP, if_pos rfl, hold.1]; simp
    · rw [e1 c e5]; exact h.at_most_once c

/-- History facts after a teller consumed `customer_left`. -/
theorem hist_teller_finish {s s1 : State} {t : Nat} (e : CustomerEvents) (evs : List Event)
    (hc : Core s) (h : Hist s) (hs : s.tpc t = .waitLeft)
    (htr : s1.trace = s.trace ++ evs)
    (htpc : s1.tpc = Function.update s.tpc t .loopHead) (hcpc : s1.cpc = s.cpc)
    (hev : s1.events = Function.update s.events (s.customer_id t) e)
    (hmap : s1.customer_teller_map = s.customer_teller_map)
    (hq : s1.customer_queue = s.customer_queue)
    (hid : s1.customer_id = s.customer_id)
    (hP : ∀ c1, pops c1 evs = []) (hW : ∀ c1, mapWrites c1 evs = [])
    (hHo : ∀ c1, c1 ≠ s.customer_id t → handshake c1 evs = [])
    (hH : (protocol t (s.customer_id t)).take
        (hsCount (s.cpc (s.customer_id t)) (s.events (s.customer_id t))) ++
      handshake (s.customer_id t) evs =
        (protocol t (s.customer_id t)).take (hsCount (s.cpc (s.customer_id t)) e))
    (hG : ∀ c1, tellerGateOps c1 evs = [])
    (hty : e.transaction_type = (s.events (s.customer_id t)).transaction_type) :
    Hist s1 := by
  have hst : (s.tpc t).serving = true := by rw [hs]; rfl
  have hcq : s.customer_id t ∉ s.customer_queue :=
    fun hm1 => (hc.queue_mem _ hm1).2.2.2 t hst rfl
  have hT := hc.teller t hst
  have hpu := hT.pushed hst
  have hmt : s.customer_teller_map (s.customer_id t) = some t := by
    rw [hs] at hT; exact hT.1
  have hother : ∀ t1, t1 ≠ t → (s.tpc t1).serving = true →
      s.customer_id t1 ≠ s.customer_id t :=
    fun t1 hne h1 heq => hne (hc.uniq t1 t h1 hst heq)
  have hserv : ∀ t1, (Function.update s.tpc t .loopHead t1).serving = true →
      t1 ≠ t ∧ (s.tpc t1).serving = true := by
    intro t1 h1
    by_cases e1 : t1 = t
    · subst e1; rw [Function.update_same] at h1; simp [TPC.serving] at h1
    · rw [Function.update_noteq e1] at h1; exact ⟨e1, h1⟩
  have e1 : ∀ c, pops c s1.trace = pops c s.trace := by
    intro c; rw [htr, pops_append, hP c, List.append_nil]
  have e2 : ∀ c, mapWrites c s1.trace = mapWrites c s.trace := by
    intro c; rw [htr, mapWrites_append, hW c, List.append_nil]
  have e3 : ∀ c, c ≠ s.customer_id t →
      Bank.handshake c s1.trace = Bank.handshake c s.trace := by
    intro c hne; rw [htr, handshake_append, hHo c hne, List.append_nil]
  have e4 : ∀ c, tellerGateOps c s1.trace = tellerGateOps c s.trace := by
    intro c; rw [htr, tellerGateOps_append, hG c, List.append_nil]
  constructor
  · intro c hc1
    rw [hcpc, hq] at hc1
    rw [e1, e4]; exact h.not_popped c hc1
  · intro t1 ht1
    rw [htpc] at ht1
    rw [e1, hid]; exact h.popped_by t1 (hserv t1 ht1).2
  · intro c t1 hc1
    rw [hmap] at hc1
    rw [e1, e2]; exact h.mapped c t1 hc1
  · intro c hc1
    rw [hmap] at hc1
    rw [e2]; exact h.unmapped c hc1
  · intro c
    rw [hmap, hcpc, hev]
    by_cases e5 : c = s.customer_id t
    · subst e5
      simp only [Function.update_same]
      rw [htr, handshake_append, h.handshake, hmt, Option.getD_some]
      exact hH
    · simp only [Function.update_noteq e5]
      rw [e3 c e5]; exact h.handshake c
  · intro t1 ht1
    rw [htpc] at ht1
    obtain ⟨e5, h1⟩ := hserv t1 ht1
    have hne := hother t1 e5 h1
    rw [htpc, hev, hid, e4]
    simp only [Function.update_noteq e5, Function.update_noteq hne]
    exact h.gates t1 h1
  · intro c hc1
    rw [hcpc, hev] at hc1
    rw [hev, e4]
    by_cases e5 : c = s.customer_id t
    · subst e5
      simp only [Function.update_same]
      have := h.gates t hst
      rw [hs] at this
      rw [hty]; exact this
    · simp only [Function.update_noteq e5] at hc1 ⊢
      exact h.gates_done c hc1
  · intro c
    rw [e1]; exact h.at_most_once c

/-- History facts after a customer that is not in the queue moved on. -/
theorem hist_customer_update {s s1 : State} {c : Nat} (pc : CPC) (e : CustomerEvents)
    (evs : List Event) (hc : Core s) (h : Hist s) (hcq : c ∉ s.customer_queue)
    (htr : s1.trace = s.trace ++ evs)
    (hcpc : s1.cpc = Function.update s.cpc c pc)
    (hev : s1.events = Function.update s.events c e)
    (hmap : s1.customer_teller_map = s.customer_teller_map)
    (hq : s1.customer_queue = s.customer_queue) (htpc : s1.tpc = s.tpc)
    (hid : s1.customer_id = s.customer_id)
    (hpush : pc.pushed = (s.cpc c).pushed)
    (hP : ∀ c1, pops c1 evs = []) (hW : ∀ c1, mapWrites c1 evs = [])
    (hG : ∀ c1, tellerGateOps c1 evs = [])
    (hHo : ∀ c1, c1 ≠ c → handshake c1 evs = [])
    (hH : ∀ t, (protocol t c).take (hsCount (s.cpc c) (s.events c)) ++ handshake c evs =
      (protocol t c).take (hsCount pc e))
    (hty : pc.pushed = true → e.transaction_type = (s.events c).transaction_type)
    (h5 : 5 ≤ hsCount pc e → 5 ≤ hsCount (s.cpc c) (s.events c)) : Hist s1 := by
  have e1 : ∀ c, pops c s1.trace = pops c s.trace := by
    intro c; rw [htr, pops_append, hP c, List.append_nil]
  have e2 : ∀ c, mapWrites c s1.trace = mapWrites c s.trace := by
    intro c; rw [htr, mapWrites_append, hW c, List.append_nil]
  have e3 : ∀ c1, c1 ≠ c → Bank.handshake c1 s1.trace = Bank.handshake c1 s.trace := by
    intro c1 hne; rw [htr, handshake_append, hHo c1 hne, List.append_nil]
  have e4 : ∀ c, tellerGateOps c s1.trace = tellerGateOps c s.trace := by
    intro c; rw [htr, tellerGateOps_append, hG c, List.append_nil]
  constructor
  · intro c1 hc1
    rw [hcpc, hq] at hc1
    rw [e1, e4]
    by_cases e5 : c1 = c
    · subst e5
      rw [Function.update_same, hpush] at hc1
      exact h.not_popped c1 hc1
    · rw [Function.update_noteq e5] at hc1
      exact h.not_popped c1 hc1
  · intro t1 ht1
    rw [htpc] at ht1
    rw [e1, hid]; exact h.popped_by t1 ht1
  · intro c1 t1 hc1
    rw [hmap] at hc1
    rw [e1, e2]; exact h.mapped c1 t1 hc1
  · intro c1 hc1
    rw [hmap] at hc1
    rw [e2]; exact h.unmapped c1 hc1
  · intro c1
    rw [hmap, hcpc, hev]
    by_cases e5 : c1 = c
    · subst e5
      simp only [Function.update_same]
      rw [htr, handshake_append, h.handshake, hH]
    · simp only [Function.update_noteq e5]
      rw [e3 c1 e5]; exact h.handshake c1
  · intro t1 ht1
    rw [htpc] at ht1
    rw [htpc, hev, hid, e4]
    by_cases e5 : s.customer_id t1 = c
    · have hpu := (hc.teller t1 ht1).pushed ht1
      rw [e5] at hpu
      rw [e5, Function.update_same, hty (by rw [hpush, hpu]), ← e5]
      exact h.gates t1 ht1
    · rw [Function.update_noteq e5]
      exact h.gates t1 ht1
  · intro c1 hc1
    rw [hcpc, hev] at hc1
    rw [hev, e4]
    by_cases e5 : c1 = c
    · subst e5
      simp only [Function.update_same] at hc1 ⊢
      have hp1 : 1 ≤ hsCount pc e := by omega
      rw [hty (hsCount_pushed hp1)]
      exact h.gates_done c1 (h5 hc1)
    · simp only [Function.update_noteq e5] at hc1 ⊢
      exact h.gates_done c1 hc1
  · intro c
    rw [e1]; exact h.at_most_once c

/-- History facts after a customer pushed itself onto the queue. -/
theorem hist_customer_push {s s1 : State} {c : Nat} (evs : List Event) (hc : Core s)
    (h : Hist s) (hpc : s.cpc c = .pushQueue) (htr : s1.trace = s.trace ++ evs)
    (hquiet : Quiet evs)
    (hcpc : s1.cpc = Function.update s.cpc c .waitTellerReady)
    (hev : s1.events = s.events)
    (hmap : s1.customer_teller_map = s.customer_teller_map)
    (hq : s1.customer_queue = queuePush s.customer_queue c) (htpc : s1.tpc = s.tpc)
    (hid : s1.customer_id = s.customer_id) : Hist s1 := by
  have hF := hc.flags c
  rw [hpc] at hF
  simp only [FlagsOK] at hF
  have hold := h.not_popped c (Or.inl (by rw [hpc]; rfl))
  have e1 : ∀ c, pops c s1.trace = pops c s.trace := by
    intro c; rw [htr, pops_append, (hquiet c).1, List.append_nil]
  have e2 : ∀ c, mapWrites c s1.trace = mapWrites c s.trace := by
    intro c; rw [htr, mapWrites_append, (hquiet c).2.1, List.append_nil]
  have e3 : ∀ c, Bank.handshake c s1.trace = Bank.handshake c s.trace := by
    intro c; rw [htr, handshake_append, (hquiet c).2.2.1, List.append_nil]
  have e4 : ∀ c, tellerGateOps c s1.trace = tellerGateOps c s.trace := by
    intro c; rw [htr, tellerGateOps_append, (hquiet c).2.2.2, List.append_nil]
  constructor
  · intro c1 hc1
    rw [hcpc, hq] at hc1
    rw [e1, e4]
    by_cases e5 : c1 = c
    · subst e5; exact hold
    · rw [Function.update_noteq e5, queuePush, List.mem_append, List.mem_singleton] at hc1
      exact h.not_popped c1 (hc1.imp id fun hm => hm.resolve_right e5)
  · intro t1 ht1
    rw [htpc] at ht1
    rw [e1, hid]; exact h.popped_by t1 ht1
  · intro c1 t1 hc1
    rw [hmap] at hc1
    rw [e1, e2]; exact h.mapped c1 t1 hc1
  · intro c1 hc1
    rw [hmap] at hc1
    rw [e2]; exact h.unmapped c1 hc1
  · intro c1
    rw [e3, hmap, hcpc, hev, h.handshake]
    by_cases e5 : c1 = c
    · subst e5
      simp [Function.update_same, hpc, hsCount, hF.1]
    · rw [Function.update_noteq e5]
  · intro t1 ht1
    rw [htpc] at ht1
    rw [htpc, hev, hid, e4]
    exact h.gates t1 ht1
  · intro c1 hc1
    rw [hcpc, hev] at hc1
    rw [hev, e4]
    by_cases e5 : c1 = c
    · subst e5
      simp [Function.update_same, hsCount, hF.1] at hc1
    · rw [Function.update_noteq e5] at hc1
      exact h.gates_done c1 hc1
  · intro c
    rw [e1]; exact h.at_most_once c

theorem serving_update_idle {f : Nat → TPC} {g : Nat → Nat} {t : Nat} {pc : TPC}
    (hpc : pc.serving = false) (t1 : Nat) (h : (Function.update f t pc t1).serving = true) :
    (f t1).serving = true ∧ Function.update f t pc t1 = f t1 ∧ g t1 = g t1 := by
  by_cases e1 : t1 = t
  · subst e1; rw [Function.update_same, hpc] at h; contradiction
  · rw [Function.update_noteq e1] at h ⊢; exact ⟨h, rfl, rfl⟩

theorem quiet_nil : Quiet [] := by
  intro c; simp [pops, mapWrites, handshake, tellerGateOps]

theorem quiet_print_log (w : Worker) : Quiet (print_log w) := by
  intro c; simp [pops, mapWrites, handshake, tellerGateOps, print_log]

theorem quiet_locked (w : Worker) (m : Mutex) (evs : List Event) (h : Quiet evs) :
    Quiet (locked w m evs) := by
  intro c
  obtain ⟨h1, h2, h3, h4⟩ := h c
  simp only [pops, mapWrites, handshake, tellerGateOps] at h1 h2 h3 h4
  simp [pops, mapWrites, handshake, tellerGateOps, locked, List.filterMap_append,
    List.filter_append, h1, h2, h3, h4]

set_option maxHeartbeats 2000000 in
theorem hist_teller_thread (s : State) (t : Nat) (hc : Core s) (h : Hist s) :
    Hist (teller_thread s t) := by
  have hTt := hc.teller t
  have hFt := hc.flags (s.customer_id t)
  have hGt := h.gates t
  have hPt := h.popped_by t
  have hW0 : mapWrites (s.customer_id t) s.trace =
      match s.customer_teller_map (s.customer_id t) with
      | some x => [x]
      | none => [] := by
    cases hm : s.customer_teller_map (s.customer_id t) with
    | none => exact h.unmapped _ hm
    | some x => exact (h.mapped _ _ hm).2
  unfold teller_thread
  split
  all_goals
    rename_i heq
    simp only [heq, TPC.serving, TellerOK, GateOK, true_implies] at hTt hGt hPt
  all_goals try dsimp only
  -- start
  · split_ifs
    · exact h
    · exact hist_quiet h rfl (by intro c; simp [pops, mapWrites, handshake, tellerGateOps])
        rfl rfl rfl rfl (serving_update_idle rfl)
  -- incReady
  · exact hist_quiet h rfl quiet_nil rfl rfl rfl rfl (serving_update_idle rfl)
  -- logReady
  · exact hist_quiet h rfl (quiet_print_log _) rfl rfl rfl rfl (serving_update_idle rfl)
  -- testOpen
  · split_ifs
    · exact hist_quiet h rfl quiet_nil rfl rfl rfl rfl (serving_update_idle rfl)
    · exact hist_quiet h rfl quiet_nil rfl rfl rfl rfl (serving_update_idle rfl)
  -- unlockReady
  · exact hist_quiet h rfl (by intro c; simp [pops, mapWrites, handshake, tellerGateOps])
      rfl rfl rfl rfl (serving_update_idle rfl)
  -- loopHead
  · split_ifs
    · exact hist_quiet h rfl quiet_nil rfl rfl rfl rfl (serving_update_idle rfl)
    · exact hist_quiet h rfl quiet_nil rfl rfl rfl rfl (serving_update_idle rfl)
  -- waitQueue
  · split
    · rename_i idv restv hp
      refine hist_teller_pop _ hc h (by rw [heq]; rfl) (queuePop_some hp) rfl rfl rfl rfl rfl
        rfl rfl ?_ ?_ ?_ ?_
      · intro c1
        by_cases e1 : c1 = idv
        · simp [pops, locked, e1]
        · simp [pops, locked, e1, Ne.symm e1]
      all_goals (intro c1; simp [mapWrites, handshake, tellerGateOps, locked])
    · exact hist_quiet h rfl (quiet_locked _ _ _ quiet_nil) rfl rfl rfl rfl
        (serving_update_idle rfl)
  -- writeMap
  · refine hist_teller_update .getEvents (s.events (s.customer_id t)) (some t) _ hc h (by rw [heq]; rfl) rfl rfl rfl
      (by simp [setT]) rfl rfl rfl rfl (Or.inr (by simp [hsCount, hTt])) ?_ ?_ ?_ ?_ ?_ ?_ ?_ ?_
    all_goals first
      | (intro c1; simp [pops, locked, print_log]; done)
      | (intro c1 hne; simp [mapWrites, handshake, tellerGateOps, locked, print_log, hne,
          Ne.symm hne]; done)
      | (try simp only [hGt, hW0]
         simp [mapWrites, handshake, tellerGateOps, locked, print_log, hsCount, protocol, GateOK,
           serviceOps, hTt, hFt, *]; done)
  -- getEvents
  · split_ifs
    · refine hist_teller_update .signalReady (s.events (s.customer_id t))
        (s.customer_teller_map (s.customer_id t)) _ hc h (by rw [heq]; rfl) rfl rfl rfl
        (by simp [setT]) (by simp [setT]) rfl rfl (by simp [hTt]) (Or.inl hTt.2.2)
        ?_ ?_ ?_ ?_ ?_ ?_ ?_ ?_
      all_goals first
        | (intro c1; simp [pops, locked, print_log]; done)
        | (intro c1 hne; simp [mapWrites, handshake, tellerGateOps, locked, print_log, hne,
            Ne.symm hne]; done)
        | (try simp only [hGt, hW0]
           simp [mapWrites, handshake, tellerGateOps, locked, print_log, hsCount, protocol, GateOK,
             serviceOps, hTt, hFt, *]; done)
    · refine hist_teller_update .fault (s.events (s.customer_id t))
        (s.customer_teller_map (s.customer_id t)) _ hc h (by rw [heq]; rfl) rfl rfl rfl
        (by simp [setT]) (by simp [setT]) rfl rfl (by simp [hTt]) (Or.inl hTt.2.2)
        ?_ ?_ ?_ ?_ ?_ ?_ ?_ ?_
      all_goals first
        | (intro c1; simp [pops, locked, print_log]; done)
        | (intro c1 hne; simp [mapWrites, handshake, tellerGateOps, locked, print_log, hne,
            Ne.symm hne]; done)
        | (try simp only [hGt, hW0]
           simp [mapWrites, handshake, tellerGateOps, locked, print_log, hsCount, protocol, GateOK,
             serviceOps, hTt, hFt, *]; done)
  -- signalReady
  · rw [hTt.1] at hFt
    simp only [FlagsOK] at hFt
    refine hist_teller_update .waitGiven _ (s.customer_teller_map (s.customer_id t)) _ hc h (by rw [heq]; rfl) rfl rfl rfl
      rfl (by simp [setT, updEvents]) rfl rfl (by simp [hTt]) (Or.inl hTt.2.2) ?_ ?_ ?_ ?_ ?_ ?_ ?_ ?_
    all_goals first
      | (intro c1; simp [pops, locked, print_log]; done)
      | (intro c1 hne; simp [mapWrites, handshake, tellerGateOps, locked, print_log, hne,
          Ne.symm hne]; done)
      | (try simp only [hGt, hW0]
         simp [mapWrites, handshake, tellerGateOps, locked, print_log, hsCount, protocol, GateOK,
           serviceOps, hTt, hFt, *]; done)
  -- waitGiven
  · split_ifs with hg
    · have hcw : s.cpc (s.customer_id t) = .waitComplete := by
        rcases hTt.2 with h1 | h1 | h1 | h1
        · rw [h1.1] at hFt; simp [FlagsOK, hg] at hFt
        · rw [h1] at hFt; simp [FlagsOK, hg] at hFt
        · rw [h1] at hFt; simp [FlagsOK, hg] at hFt
        · exact h1.1
      rw [hcw] at hFt
      simp only [FlagsOK] at hFt
      have hcf := hFt.2.2 hg
      refine hist_teller_update .readType _ (s.customer_teller_map (s.customer_id t)) _ hc h (by rw [heq]; rfl) rfl rfl rfl
        rfl (by simp [setT, updEvents]) rfl rfl (by simp [hTt]) (Or.inl hTt.1) ?_ ?_ ?_ ?_ ?_ ?_ ?_ ?_
      all_goals first
        | (intro c1; simp [pops, locked, print_log]; done)
        | (intro c1 hne; simp [mapWrites, handshake, tellerGateOps, locked, print_log, hne,
            Ne.symm hne]; done)
        | (try simp only [hGt, hW0]
           simp [mapWrites, handshake, tellerGateOps, locked, print_log, hsCount, protocol, GateOK,
             serviceOps, hTt, hFt, *]; done)
    · exact h
  -- readType
  · split_ifs with hw
    · refine hist_teller_update .managerAcquire (s.events (s.customer_id t)) (s.customer_teller_map (s.customer_id t)) _ hc h (by rw [heq]; rfl) rfl rfl rfl
        (by simp [setT]) (by simp [setT]) rfl rfl (by simp [hTt]) (Or.inl hTt.1) ?_ ?_ ?_ ?_ ?_ ?_ ?_ ?_
      all_goals first
        | (intro c1; simp [pops, locked, print_log]; done)
        | (intro c1 hne; simp [mapWrites, handshake, tellerGateOps, locked, print_log, hne,
            Ne.symm hne]; done)
        | (try simp only [hGt, hW0]
           simp [mapWrites, handshake, tellerGateOps, locked, print_log, hsCount, protocol, GateOK,
             serviceOps, hTt, hFt, *]; done)
    · refine hist_teller_update .safeAcquire (s.events (s.customer_id t)) (s.customer_teller_map (s.customer_id t)) _ hc h (by rw [heq]; rfl) rfl rfl rfl
        (by simp [setT]) (by simp [setT]) rfl rfl (by simp [hTt]) (Or.inl hTt.1) ?_ ?_ ?_ ?_ ?_ ?_ ?_ ?_
      all_goals first
        | (intro c1; simp [pops, locked, print_log]; done)
        | (intro c1 hne; simp [mapWrites, handshake, tellerGateOps, locked, print_log, hne,
            Ne.symm hne]; done)
        | (try simp only [hGt, hW0]
           simp [mapWrites, handshake, tellerGateOps, locked, print_log, hsCount, protocol, GateOK,
             serviceOps, hTt, hFt, *]; done)
  -- managerAcquire
  · split
    · refine hist_teller_update .inManager (s.events (s.customer_id t)) (s.customer_teller_map (s.customer_id t)) _ hc h (by rw [heq]; rfl) rfl rfl rfl
        (by simp [setT]) (by simp [setT]) rfl rfl (by simp [hTt]) (Or.inl hTt.1) ?_ ?_ ?_ ?_ ?_ ?_ ?_ ?_
      all_goals first
        | (intro c1; simp [pops, locked, print_log]; done)
        | (intro c1 hne; simp [mapWrites, handshake, tellerGateOps, locked, print_log, hne,
            Ne.symm hne]; done)
        | (try simp only [hGt, hW0]
           simp [mapWrites, handshake, tellerGateOps, locked, print_log, hsCount, protocol, GateOK,
             serviceOps, hTt, hFt, *]; done)
    · exact h
  -- inManager
  · refine hist_teller_update .safeAcquire (s.events (s.customer_id t)) (s.customer_teller_map (s.customer_id t)) _ hc h (by rw [heq]; rfl) rfl rfl rfl
      (by simp [setT]) (by simp [setT]) rfl rfl (by simp [hTt]) (Or.inl hTt.1) ?_ ?_ ?_ ?_ ?_ ?_ ?_ ?_
    all_goals first
      | (intro c1; simp [pops, locked, print_log]; done)
      | (intro c1 hne; simp [mapWrites, handshake, tellerGateOps, locked, print_log, hne,
          Ne.symm hne]; done)
      | (try simp only [hGt, hW0]
         simp [mapWrites, handshake, tellerGateOps, locked, print_log, hsCount, protocol, GateOK,
           serviceOps, hTt, hFt, *]; done)
  -- safeAcquire
  · split
    · refine hist_teller_update .inSafe (s.events (s.customer_id t)) (s.customer_teller_map (s.customer_id t)) _ hc h (by rw [heq]; rfl) rfl rfl rfl
        (by simp [setT]) (by simp [setT]) rfl rfl (by simp [hTt]) (Or.inl hTt.1) ?_ ?_ ?_ ?_ ?_ ?_ ?_ ?_
      all_goals first
        | (intro c1; simp [pops, locked, print_log]; done)
        | (intro c1 hne; simp [mapWrites, handshake, tellerGateOps, locked, print_log, hne,
            Ne.symm hne]; done)
        | (try simp only [hGt, hW0]
           simp [mapWrites, handshake, tellerGateOps, locked, print_log, hsCount, protocol, GateOK,
             serviceOps, hTt, hFt, *]; done)
    · exact h
  -- inSafe
  · refine hist_teller_update .signalComplete (s.events (s.customer_id t)) (s.customer_teller_map (s.customer_id t)) _ hc h (by rw [heq]; rfl) rfl rfl rfl
      (by simp [setT]) (by simp [setT]) rfl rfl (by simp [hTt]) (Or.inl hTt.1) ?_ ?_ ?_ ?_ ?_ ?_ ?_ ?_
    all_goals first
      | (intro c1; simp [pops, locked, print_log]; done)
      | (intro c1 hne; simp [mapWrites, handshake, tellerGateOps, locked, print_log, hne,
          Ne.symm hne]; done)
      | (try simp only [hGt, hW0]
         simp [mapWrites, handshake, tellerGateOps, locked, print_log, hsCount, protocol, GateOK,
           serviceOps, hTt, hFt, *]; done)
  -- signalComplete
  · rw [hTt.2.1] at hFt
    simp only [FlagsOK] at hFt
    refine hist_teller_update .waitLeft _ (s.customer_teller_map (s.customer_id t)) _ hc h (by rw [heq]; rfl) rfl rfl rfl
      rfl (by simp [setT, updEvents]) rfl rfl (by simp [hTt]) (Or.inl hTt.1) ?_ ?_ ?_ ?_ ?_ ?_ ?_ ?_
    all_goals first
      | (intro c1; simp [pops, locked, print_log]; done)
      | (intro c1 hne; simp [mapWrites, handshake, tellerGateOps, locked, print_log, hne,
          Ne.symm hne]; done)
      | (try simp only [hGt, hW0]
         simp [mapWrites, handshake, tellerGateOps, locked, print_log, hsCount, protocol, GateOK,
           serviceOps, hTt, hFt, *]; done)
  -- waitLeft
  · split_ifs with hg
    · have hcd : s.cpc (s.customer_id t) = .incServed ∨ s.cpc (s.customer_id t) = .done := by
        rcases hTt.2 with h1 | h1 | h1
        · rw [h1.1] at hFt; simp [FlagsOK, hg] at hFt
        · rw [h1] at hFt; simp [FlagsOK, hg] at hFt
        · exact h1.1
      refine hist_teller_finish _ _ hc h heq rfl rfl rfl rfl rfl rfl rfl ?_ ?_ ?_ ?_ ?_ rfl
      all_goals first
        | (intro c1; simp [pops, mapWrites, tellerGateOps, locked, print_log]; done)
        | (intro c1 hne; simp [handshake, locked, print_log, hne, Ne.symm hne]; done)
        | (rcases hcd with hcd | hcd <;>
            simp [handshake, locked, hsCount, protocol, hcd, hg]; done)
    · exact h
  -- exited
  · exact h
  -- fault
  · exact hist_segfault s h

set_option maxHeartbeats 2000000 in
theorem hist_customer_thread (env : Env) (s : State) (c : Nat) (hc : Core s) (h : Hist s) :
    Hist (customer_thread env s c) := by
  have hFc := hc.flags c
  have hnq : s.cpc c ≠ .waitTellerReady → c ∉ s.customer_queue :=
    fun hne hm => hne (hc.queue_mem c hm).1
  unfold customer_thread
  split
  all_goals
    rename_i heq
    simp only [heq, FlagsOK] at hFc
    simp only [heq, ne_eq, reduceCtorEq, not_false_eq_true, not_true_eq_false, true_implies,
      false_implies] at hnq
  all_goals try dsimp only
  -- start
  · refine hist_customer_update .waitOpen (s.events c) _ hc h hnq rfl rfl (by simp [setC]) rfl rfl rfl rfl
      (by simp [heq, CPC.pushed]) ?_ ?_ ?_ ?_ ?_ ?_ ?_
    all_goals first
      | (intro c1; simp [pops, mapWrites, tellerGateOps, locked, print_log]; done)
      | (intro c1 hne; simp [handshake, locked, print_log, hne, Ne.symm hne]; done)
      | (intro t1; simp [handshake, locked, print_log, hsCount, protocol, heq, hFc, *]; done)
      | (simp [hsCount, CPC.pushed, heq, hFc, CustomerEvents.fresh, *]; done)
  -- waitOpen
  · split_ifs
    · refine hist_customer_update .doorAcquire (s.events c) _ hc h hnq rfl rfl (by simp [setC]) rfl rfl rfl rfl
        (by simp [heq, CPC.pushed]) ?_ ?_ ?_ ?_ ?_ ?_ ?_
      all_goals first
        | (intro c1; simp [pops, mapWrites, tellerGateOps, locked, print_log]; done)
        | (intro c1 hne; simp [handshake, locked, print_log, hne, Ne.symm hne]; done)
        | (intro t1; simp [handshake, locked, print_log, hsCount, protocol, heq, hFc, *]; done)
        | (simp [hsCount, CPC.pushed, heq, hFc, CustomerEvents.fresh, *]; done)
    · exact h
  -- doorAcquire
  · split
    · refine hist_customer_update .inDoor (s.events c) _ hc h hnq rfl rfl (by simp [setC]) rfl rfl rfl rfl
        (by simp [heq, CPC.pushed]) ?_ ?_ ?_ ?_ ?_ ?_ ?_
      all_goals first
        | (intro c1; simp [pops, mapWrites, tellerGateOps, locked, print_log]; done)
        | (intro c1 hne; simp [handshake, locked, print_log, hne, Ne.symm hne]; done)
        | (intro t1; simp [handshake, locked, print_log, hsCount, protocol, heq, hFc, *]; done)
        | (simp [hsCount, CPC.pushed, heq, hFc, CustomerEvents.fresh, *]; done)
    · exact h
  -- inDoor
  · refine hist_customer_update .createEvents (s.events c) _ hc h hnq rfl rfl (by simp [setC]) rfl rfl rfl rfl
      (by simp [heq, CPC.pushed]) ?_ ?_ ?_ ?_ ?_ ?_ ?_
    all_goals first
      | (intro c1; simp [pops, mapWrites, tellerGateOps, locked, print_log]; done)
      | (intro c1 hne; simp [handshake, locked, print_log, hne, Ne.symm hne]; done)
      | (intro t1; simp [handshake, locked, print_log, hsCount, protocol, heq, hFc, *]; done)
      | (simp [hsCount, CPC.pushed, heq, hFc, CustomerEvents.fresh, *]; done)
  -- createEvents
  · refine hist_customer_update .pushQueue _ _ hc h hnq rfl rfl rfl rfl rfl rfl rfl
      (by simp [heq, CPC.pushed]) ?_ ?_ ?_ ?_ ?_ ?_ ?_
    all_goals first
      | (intro c1; simp [pops, mapWrites, tellerGateOps, locked, print_log]; done)
      | (intro c1 hne; simp [handshake, locked, print_log, hne, Ne.symm hne]; done)
      | (intro t1; simp [handshake, locked, print_log, hsCount, protocol, heq, hFc, *]; done)
      | (simp [hsCount, CPC.pushed, heq, hFc, CustomerEvents.fresh, *]; done)
  -- pushQueue
  · exact hist_customer_push _ hc h heq rfl (quiet_locked _ _ _ (by
      intro c1; simp [pops, mapWrites, handshake, tellerGateOps])) rfl rfl rfl rfl rfl rfl
  -- waitTellerReady
  · split_ifs with hg
    · have hnq : c ∉ s.customer_queue := by
        intro hm
        have := (hc.queue_mem c hm).2.1
        rw [hg] at this; contradiction
      refine hist_customer_update .readMap _ _ hc h hnq rfl rfl rfl rfl rfl rfl rfl
        (by simp [heq, CPC.pushed]) ?_ ?_ ?_ ?_ ?_ ?_ ?_
      all_goals first
        | (intro c1; simp [pops, mapWrites, tellerGateOps, locked, print_log]; done)
        | (intro c1 hne; simp [handshake, locked, print_log, hne, Ne.symm hne]; done)
        | (intro t1; simp [handshake, locked, print_log, hsCount, protocol, heq, hFc, *]; done)
        | (simp [hsCount, CPC.pushed, heq, hFc, CustomerEvents.fresh, *]; done)
    · exact h
  -- readMap
  · have ha := hc.assigned c (Or.inr (by rw [heq]; rfl))
    refine hist_customer_update .giveTransaction (s.events c) _ hc h hnq rfl rfl (by simp [setC])
      (mapRead_of_isSome ha).1 rfl rfl rfl (by simp [heq, CPC.pushed]) ?_ ?_ ?_ ?_ ?_ ?_ ?_
    all_goals first
      | (intro c1; simp [pops, mapWrites, tellerGateOps, locked, print_log]; done)
      | (intro c1 hne; simp [handshake, locked, print_log, hne, Ne.symm hne]; done)
      | (intro t1; simp [handshake, locked, print_log, hsCount, protocol, heq, hFc, *]; done)
      | (simp [hsCount, CPC.pushed, heq, hFc, CustomerEvents.fresh, *]; done)
  -- giveTransaction
  · refine hist_customer_update .waitComplete _ _ hc h hnq rfl rfl rfl rfl rfl rfl rfl
      (by simp [heq, CPC.pushed]) ?_ ?_ ?_ ?_ ?_ ?_ ?_
    all_goals first
      | (intro c1; simp [pops, mapWrites, tellerGateOps, locked, print_log]; done)
      | (intro c1 hne; simp [handshake, locked, print_log, hne, Ne.symm hne]; done)
      | (intro t1; simp [handshake, locked, print_log, hsCount, protocol, heq, hFc, *]; done)
      | (simp [hsCount, CPC.pushed, heq, hFc, CustomerEvents.fresh, *]; done)
  -- waitComplete
  · split_ifs with hg
    · have hgiven : (s.events c).transaction_given_flag = false := by
        cases hx : (s.events c).transaction_given_flag
        · rfl
        · have := hFc.2.2 hx
          rw [hg] at this; contradiction
      refine hist_customer_update .signalLeft _ _ hc h hnq rfl rfl rfl rfl rfl rfl rfl
        (by simp [heq, CPC.pushed]) ?_ ?_ ?_ ?_ ?_ ?_ ?_
      all_goals first
        | (intro c1; simp [pops, mapWrites, tellerGateOps, locked, print_log]; done)
        | (intro c1 hne; simp [handshake, locked, print_log, hne, Ne.symm hne]; done)
        | (intro t1; simp [handshake, locked, print_log, hsCount, protocol, heq, hFc, *]; done)
        | (simp [hsCount, CPC.pushed, heq, hFc, CustomerEvents.fresh, *]; done)
    · exact h
  -- signalLeft
  · refine hist_customer_update .incServed _ _ hc h hnq rfl rfl rfl rfl rfl rfl rfl
      (by simp [heq, CPC.pushed]) ?_ ?_ ?_ ?_ ?_ ?_ ?_
    all_goals first
      | (intro c1; simp [pops, mapWrites, tellerGateOps, locked, print_log]; done)
      | (intro c1 hne; simp [handshake, locked, print_log, hne, Ne.symm hne]; done)
      | (intro t1; simp [handshake, locked, print_log, hsCount, protocol, heq, hFc, *]; done)
      | (simp [hsCount, CPC.pushed, heq, hFc, CustomerEvents.fresh, *]; done)
  -- incServed
  · refine hist_customer_update .done (s.events c) _ hc h hnq rfl rfl (by simp [setC]) rfl rfl rfl rfl
      (by simp [heq, CPC.pushed]) ?_ ?_ ?_ ?_ ?_ ?_ ?_
    all_goals first
      | (intro c1; simp [pops, mapWrites, tellerGateOps, locked, print_log]; done)
      | (intro c1 hne; simp [handshake, locked, print_log, hne, Ne.symm hne]; done)
      | (intro t1; simp [handshake, locked, print_log, hsCount, protocol, heq, hFc, *]; done)
      | (simp [hsCount, CPC.pushed, heq, hFc, CustomerEvents.fresh, *]; done)
  -- done
  · exact h

theorem hist_step (env : Env) (s : State) (w : Worker) (hc : Core s) (h : Hist s) :
    Hist (step env s w) :=
  step_cases Hist env s w h (fun t _ => hist_teller_thread s t hc h)
    (fun c _ => hist_customer_thread env s c hc h)

theorem hist_run (env : Env) (sched : List Worker) : Hist (run env sched) :=
  (run_induction (fun s => Core s ∧ Hist s) env ⟨core_init, hist_init⟩
    (fun s w h => ⟨core_step env s w h.1, hist_step env s w h.1 h.2⟩) sched).2

/-! ## What a step leaves unchanged -/

theorem teller_thread_cpc (s : State) (t : Nat) : (teller_thread s t).cpc = s.cpc := by
  unfold teller_thread
  split <;> try dsimp only
  all_goals try split_ifs
  all_goals try split
  all_goals rfl

theorem teller_thread_transaction_type (s : State) (t : Nat) :
    (teller_thread s t).transaction_type = s.transaction_type := by
  unfold teller_thread
  split <;> try dsimp only
  all_goals try split_ifs
  all_goals try split
  all_goals rfl

theorem teller_thread_tpc_ne (s : State) (t t1 : Nat) (h : t1 ≠ t) :
    (teller_thread s t).tpc t1 = s.tpc t1 := by
  unfold teller_thread
  split <;> try dsimp only
  all_goals try split_ifs
  all_goals try split
  all_goals first
    | rfl
    | (simp only [setT, updEvents]; exact Function.update_noteq h _ _)

theorem teller_thread_events_type (s : State) (t c : Nat) :
    ((teller_thread s t).events c).transaction_type = (s.events c).transaction_type := by
  unfold teller_thread
  split <;> try dsimp only
  all_goals try split_ifs
  all_goals try split
  all_goals first
    | rfl
    | (simp only [setT, updEvents]
       by_cases e1 : c = s.customer_id t
       · subst e1; rw [Function.update_same]
       · rw [Function.update_noteq e1])

theorem teller_thread_bank_open (s : State) (t : Nat) (h : s.bank_open = true) :
    (teller_thread s t).bank_open = true := by
  unfold teller_thread
  split <;> try dsimp only
  all_goals try split_ifs
  all_goals try split
  all_goals first
    | exact h
    | rfl

theorem customer_thread_tpc (env : Env) (s : State) (c : Nat) :
    (customer_thread env s c).tpc = s.tpc := by
  unfold customer_thread
  split <;> try dsimp only
  all_goals try split_ifs
  all_goals try split
  all_goals rfl

theorem customer_thread_bank_open (env : Env) (s : State) (c : Nat) :
    (customer_thread env s c).bank_open = s.bank_open := by
  unfold customer_thread
  split <;> try dsimp only
  all_goals try split_ifs
  all_goals try split
  all_goals rfl

theorem customer_thread_cpc_ne (env : Env) (s : State) (c c1 : Nat) (h : c1 ≠ c) :
    (customer_thread env s c).cpc c1 = s.cpc c1 := by
  unfold customer_thread
  split <;> try dsimp only
  all_goals try split_ifs
  all_goals try split
  all_goals first
    | rfl
    | (simp only [setC, updEvents]; exact Function.update_noteq h _ _)

theorem customer_thread_transaction_type_ne (env : Env) (s : State) (c c1 : Nat)
    (h : c1 ≠ c) :
    (customer_thread env s c).transaction_type c1 = s.transaction_type c1 := by
  unfold customer_thread
  split <;> try dsimp only
  all_goals try split_ifs
  all_goals try split
  all_goals first
    | rfl
    | (simp only [setC, updEvents]; exact Function.update_noteq h _ _)

theorem customer_thread_events_ne (env : Env) (s : State) (c c1 : Nat) (h : c1 ≠ c) :
    (customer_thread env s c).events c1 = s.events c1 := by
  unfold customer_thread
  split <;> try dsimp only
  all_goals try split_ifs
  all_goals try split
  all_goals first
    | rfl
    | (simp only [setC, updEvents]; exact Function.update_noteq h _ _)

theorem teller_thread_map (s : State) (t c v : Nat)
    (h : (teller_thread s t).customer_teller_map c = some v) :
    v = t ∨ s.customer_teller_map c = some v := by
  revert h
  unfold teller_thread
  split <;> try dsimp only
  all_goals try split_ifs
  all_goals try split
  all_goals first
    | exact fun h => Or.inr h
    | (simp only [setT, updEvents, mapWrite]
       intro h
       by_cases e1 : c = s.customer_id t
       · subst e1
         rw [Function.update_same] at h
         exact Or.inl (Option.some.inj h).symm
       · rw [Function.update_noteq e1] at h
         exact Or.inr h)

theorem mapRead_snd (m : Nat → Option Nat) (k c v : Nat) (h : (mapRead m k).2 c = some v) :
    v = 0 ∨ m c = some v := by
  unfold mapRead at h
  split at h
  · exact Or.inr h
  · simp only at h
    by_cases e1 : c = k
    · subst e1
      rw [Function.update_same] at h
      exact Or.inl (Option.some.inj h).symm
    · rw [Function.update_noteq e1] at h
      exact Or.inr h

theorem customer_thread_map (env : Env) (s : State) (c c1 v : Nat)
    (h : (customer_thread env s c).customer_teller_map c1 = some v) :
    v = 0 ∨ s.customer_teller_map c1 = some v := by
  revert h
  unfold customer_thread
  split <;> try dsimp only
  all_goals try split_ifs
  all_goals try split
  all_goals first
    | exact fun h => Or.inr h
    | (simp only [setC, updEvents]
       exact mapRead_snd _ _ _ _)

theorem basics_init (env : Env) : Basics env init := by
  constructor <;> simp [init, CPC.hasEvents]

theorem basics_teller_thread (env : Env) (s : State) (t : Nat) (ht : t < NUM_TELLERS)
    (h : Basics env s) : Basics env (teller_thread s t) := by
  constructor
  · intro t1 h1
    rw [teller_thread_tpc_ne s t t1 (by omega)]; exact h.teller_bound t1 h1
  · rw [teller_thread_cpc]; exact h.customer_bound
  · rw [teller_thread_cpc, teller_thread_transaction_type]; exact h.chosen
  · intro c hc1
    rw [teller_thread_cpc] at hc1
    rw [teller_thread_events_type, teller_thread_transaction_type]; exact h.stored c hc1
  · intro c h1 h2
    rw [teller_thread_cpc] at h1 h2
    exact teller_thread_bank_open s t (h.barrier c h1 h2)
  · intro c v h1
    rcases teller_thread_map s t c v h1 with h2 | h2
    · rw [h2]; exact ht
    · exact h.map_bound c v h2

set_option maxHeartbeats 1000000 in
theorem basics_customer_thread (env : Env) (s : State) (c : Nat) (hc : c < NUM_CUSTOMERS)
    (h : Basics env s) : Basics env (customer_thread env s c) := by
  have h3 := h.chosen c
  have h4 := h.stored c
  have h5 := h.barrier c
  constructor
  · rw [customer_thread_tpc]; exact h.teller_bound
  · intro c1 h1
    rw [customer_thread_cpc_ne env s c c1 (by omega)]; exact h.customer_bound c1 h1
  · intro c1 h1
    by_cases e1 : c1 = c
    · subst e1
      revert h1
      unfold customer_thread
      split <;> try dsimp only
      all_goals try split_ifs
      all_goals try split
      all_goals simp_all [setC, updEvents]
    · rw [customer_thread_cpc_ne env s c c1 e1] at h1
      rw [customer_thread_transaction_type_ne env s c c1 e1]; exact h.chosen c1 h1
  · intro c1 h1
    by_cases e1 : c1 = c
    · subst e1
      revert h1
      unfold customer_thread
      split <;> try dsimp only
      all_goals try split_ifs
      all_goals try split
      all_goals simp_all [setC, updEvents, CPC.hasEvents]
    · rw [customer_thread_cpc_ne env s c c1 e1] at h1
      rw [customer_thread_transaction_type_ne env s c c1 e1, customer_thread_events_ne env s c c1 e1]
      exact h.stored c1 h1
  · intro c1 h1 h2
    rw [customer_thread_bank_open]
    by_cases e1 : c1 = c
    · subst e1
      revert h1 h2
      unfold customer_thread
      split <;> try dsimp only
      all_goals try split_ifs
      all_goals try split
      all_goals simp_all [setC, updEvents]
    · rw [customer_thread_cpc_ne env s c c1 e1] at h1 h2
      exact h.barrier c1 h1 h2
  · intro c1 v h1
    rcases customer_thread_map env s c c1 v h1 with h2 | h2
    · rw [h2]; decide
    · exact h.map_bound c1 v h2

theorem basics_step (env : Env) (s : State) (w : Worker) (h : Basics env s) :
    Basics env (step env s w) :=
  step_cases (Basics env) env s w h (fun t ht => basics_teller_thread env s t ht h)
    (fun c hc => basics_customer_thread env s c hc h)

theorem basics_run (env : Env) (sched : List Worker) : Basics env (run env sched) :=
  run_induction (Basics env) env (basics_init env) (fun s w h => basics_step env s w h) sched

theorem lockOps_append (w : Worker) (a b : List Event) :
    lockOps w (a ++ b) = lockOps w a ++ lockOps w b := by
  simp [lockOps, List.filterMap_append]

theorem lockOps_of_other (w : Worker) (evs : List Event) (h : ∀ e ∈ evs, e.actor ≠ w) :
    lockOps w evs = [] := by
  unfold lockOps
  rw [List.filterMap_eq_nil_iff]
  intro e he
  rw [if_neg (h e he)]

theorem lockRun_append (h : List Res) (a b : List LockOp) :
    lockRun h (a ++ b) = (lockRun h a).bind fun h1 => lockRun h1 b := by
  induction a generalizing h with
  | nil => rfl
  | cons op a ih =>
    cases op with
    | acquire r =>
      simp only [List.cons_append, lockRun]
      split_ifs
      · exact ih _
      · rfl
    | release r =>
      simp only [List.cons_append, lockRun]
      exact ih _

theorem lockRun_heldAfter (h h1 : List Res) (ops : List LockOp) (hr : lockRun h ops = some h1) :
    heldAfter h ops = h1 := by
  induction ops generalizing h with
  | nil => simpa [lockRun, heldAfter] using hr
  | cons op ops ih =>
    cases op with
    | acquire r =>
      simp only [lockRun] at hr
      split_ifs at hr
      exact ih _ hr
    | release r =>
      simp only [lockRun] at hr
      exact ih _ hr

theorem allowed_spec (h : List Res) (r : Res) (ha : allowed h r = true) :
    (r ≠ .mutex .print_lock → h = []) ∧
    (r = .mutex .print_lock → h = [] ∨ h = [.mutex .teller_ready_lock] ∨ ∃ g, h = [.sem g]) := by
  unfold allowed at ha
  constructor
  · intro hne
    simpa [hne] using ha
  · intro he
    simp only [he, if_true, Bool.or_eq_true, decide_eq_true_eq] at ha
    rcases ha with (((ha | ha) | ha) | ha) | ha
    · exact Or.inl ha
    · exact Or.inr (Or.inl ha)
    · exact Or.inr (Or.inr ⟨_, ha⟩)
    · exact Or.inr (Or.inr ⟨_, ha⟩)
    · exact Or.inr (Or.inr ⟨_, ha⟩)

/-- A sequence accepted by `lockRun` keeps the discipline. -/
theorem lockRun_discipline (ops : List LockOp) (h1 : List Res) (hr : lockRun [] ops = some h1) :
    SingleResourceExceptLog ops := by
  intro pre r post hops
  rw [hops, lockRun_append] at hr
  cases hp : lockRun [] pre with
  | none => rw [hp] at hr; simp at hr
  | some h2 =>
    rw [hp] at hr
    simp only [Option.some_bind, lockRun] at hr
    have hheld : held pre = h2 := lockRun_heldAfter [] h2 pre hp
    rw [hheld]
    by_cases ha : allowed h2 r = true
    · exact allowed_spec h2 r ha
    · rw [if_neg ha] at hr; contradiction

theorem teller_thread_trace (s : State) (t : Nat) :
    ∃ evs, (teller_thread s t).trace = s.trace ++ evs ∧ ∀ e ∈ evs, e.actor = .teller t := by
  unfold teller_thread
  split <;> try dsimp only
  all_goals try split_ifs
  all_goals try split
  all_goals first
    | (refine ⟨_, rfl, ?_⟩
       simp [locked, print_log, Event.actor]
       done)
    | exact ⟨[], (List.append_nil _).symm, fun e he => absurd he (List.not_mem_nil e)⟩

theorem customer_thread_trace (env : Env) (s : State) (c : Nat) :
    ∃ evs, (customer_thread env s c).trace = s.trace ++ evs ∧
      ∀ e ∈ evs, e.actor = .customer c := by
  unfold customer_thread
  split <;> try dsimp only
  all_goals try split_ifs
  all_goals try split
  all_goals first
    | (refine ⟨_, rfl, ?_⟩
       simp [locked, print_log, Event.actor]
       done)
    | exact ⟨[], (List.append_nil _).symm, fun e he => absurd he (List.not_mem_nil e)⟩

theorem locks_init : Locks init := by
  intro w
  cases w <;> simp [init, lockOps, lockRun, heldOf]

set_option maxHeartbeats 2000000 in
theorem locks_teller_thread (s : State) (t : Nat) (h : Locks s) : Locks (teller_thread s t) := by
  intro w
  by_cases hw : w = .teller t
  · subst hw
    have h1 := h (.teller t)
    revert h1
    unfold teller_thread
    split <;> try dsimp only
    all_goals try split_ifs
    all_goals try split
    all_goals
      rename_i heq
      intro h1
    all_goals first
      | exact h1
      | (simp only [setT, updEvents, lockOps_append, lockRun_append, h1]
         simp_all [heldOf, lockOps, locked, print_log, Event.actor, Event.lockOp, lockRun,
           allowed])
  · obtain ⟨evs, h1, h2⟩ := teller_thread_trace s t
    have h3 : lockOps w evs = [] :=
      lockOps_of_other w evs (fun e he => by rw [h2 e he]; exact Ne.symm hw)
    have h4 : heldOf (teller_thread s t) w = heldOf s w := by
      cases w with
      | teller t1 =>
        have : t1 ≠ t := fun e1 => hw (by rw [e1])
        simp only [heldOf, teller_thread_tpc_ne s t t1 this]
      | customer c => simp only [heldOf, teller_thread_cpc]
    rw [h1, lockOps_append, h3, List.append_nil, h4]
    exact h w

set_option maxHeartbeats 2000000 in
theorem locks_customer_thread (env : Env) (s : State) (c : Nat) (h : Locks s) :
    Locks (customer_thread env s c) := by
  intro w
  by_cases hw : w = .customer c
  · subst hw
    have h1 := h (.customer c)
    revert h1
    unfold customer_thread
    split <;> try dsimp only
    all_goals try split_ifs
    all_goals try split
    all_goals
      rename_i heq
      intro h1
    all_goals first
      | exact h1
      | (simp only [setC, updEvents, lockOps_append, lockRun_append, h1]
         simp_all [heldOf, lockOps, locked, print_log, Event.actor, Event.lockOp, lockRun,
           allowed])
  · obtain ⟨evs, h1, h2⟩ := customer_thread_trace env s c
    have h3 : lockOps w evs = [] :=
      lockOps_of_other w evs (fun e he => by rw [h2 e he]; exact Ne.symm hw)
    have h4 : heldOf (customer_thread env s c) w = heldOf s w := by
      cases w with
      | teller t => simp only [heldOf, customer_thread_tpc]
      | customer c1 =>
        have : c1 ≠ c := fun e1 => hw (by rw [e1])
        simp only [heldOf, customer_thread_cpc_ne env s c c1 this]
    rw [h1, lockOps_append, h3, List.append_nil, h4]
    exact h w

theorem locks_step (env : Env) (s : State) (w : Worker) (h : Locks s) :
    Locks (step env s w) :=
  step_cases Locks env s w h (fun t _ => locks_teller_thread s t h)
    (fun c _ => locks_customer_thread env s c h)

theorem locks_run (env : Env) (sched : List Worker) : Locks (run env sched) :=
  run_induction Locks env locks_init (fun s w h => locks_step env s w h) sched

theorem fifo_init : Fifo init := by
  simp [Fifo, init, poppedIds, pushedIds]

set_option maxHeartbeats 1000000 in
theorem fifo_teller_thread (s : State) (t : Nat) (h : Fifo s) : Fifo (teller_thread s t) := by
  unfold Fifo at h ⊢
  unfold teller_thread
  split <;> try dsimp only
  all_goals try split_ifs
  all_goals try split
  all_goals first
    | exact h
    | (simp only [setT, updEvents, poppedIds, pushedIds, locked, print_log,
         List.filterMap_append, List.filterMap_cons, List.filterMap_nil, List.append_nil,
         List.nil_append] at h ⊢
       exact h)
    | (rename_i hp
       have hq := queuePop_some hp
       rw [hq] at h
       simp only [setT, updEvents, poppedIds, pushedIds, locked, print_log,
         List.filterMap_append, List.filterMap_cons, List.filterMap_nil, List.append_nil,
         List.nil_append, List.append_assoc, List.singleton_append] at h ⊢
       exact h)

set_option maxHeartbeats 1000000 in
theorem fifo_customer_thread (env : Env) (s : State) (c : Nat) (h : Fifo s) :
    Fifo (customer_thread env s c) := by
  unfold Fifo at h ⊢
  unfold customer_thread
  split <;> try dsimp only
  all_goals try split_ifs
  all_goals try split
  all_goals first
    | exact h
    | (simp only [setC, updEvents, poppedIds, pushedIds, locked, print_log,
         List.filterMap_append, List.filterMap_cons, List.filterMap_nil, List.append_nil,
         List.nil_append] at h ⊢
       exact h)
    | (simp only [setC, updEvents, poppedIds, pushedIds, locked, print_log, queuePush,
         List.filterMap_append, List.filterMap_cons, List.filterMap_nil, List.append_nil,
         List.nil_append, ← List.append_assoc] at h ⊢
       rw [h])

theorem fifo_step (env : Env) (s : State) (w : Worker) (h : Fifo s) :
    Fifo (step env s w) :=
  step_cases Fifo env s w h (fun t _ => fifo_teller_thread s t h)
    (fun c _ => fifo_customer_thread env s c h)

theorem fifo_run (env : Env) (sched : List Worker) : Fifo (run env sched) :=
  run_induction Fifo env fifo_init (fun s w h => fifo_step env s w h) sched

/-- The schedule `serveAllAndClose` runs the program to termination. -/
theorem terminated_serveAllAndClose : Terminated (run sampleDraw serveAllAndClose) := by
  decide!

/-- The data race on `customer_events` can kill the program: when the insertion of customer 0
is lost, the teller that dequeues customer 0 finds no entry, and the process dies with nobody
served and no handshake operation done for customer 0. -/
theorem segfault_reachable :
    (run lossyDraw lookupLost).segfault = true ∧ (run lossyDraw lookupLost).tpc 0 = .fault ∧
      (run lossyDraw lookupLost).customer_id 0 = 0 ∧
      (run lossyDraw lookupLost).customers_served = 0 ∧
      handshake 0 (run lossyDraw lookupLost).trace = [] := by
  decide!

theorem step_teller (env : Env) (s : State) (t : Nat) (hs : s.segfault = false)
    (ht : t < NUM_TELLERS) : step env s (.teller t) = teller_thread s t := by
  simp [step, hs, ht]

theorem step_customer (env : Env) (s : State) (c : Nat) (hs : s.segfault = false)
    (hc : c < NUM_CUSTOMERS) : step env s (.customer c) = customer_thread env s c := by
  simp [step, hs, hc]

/-! ## The claims -/

theorem count_eq_zero_iff {α : Type} [DecidableEq α] (a : α) (f : Nat → α) (n : Nat) :
    (List.range n).countP (fun j => decide (f j = a)) = 0 ↔ ∀ i, i < n → f i ≠ a := by
  rw [List.countP_eq_zero]
  simp [List.mem_range]

/-- Claim C1.  In every reachable state each semaphore count `a` satisfies `0 ≤ a ≤ C` for its
initial count `C` (door 2, manager 1, safe 2), and the number of threads between an `acquire`
of that semaphore and the matching `release` is `C - a`, hence at most `C`: at most two
customers in the door, at most one teller with the manager, at most two tellers in the safe. -/
theorem C1_gate_capacity (env : Env) (sched : List Worker) :
    (init.door_semaphore.count = 2 ∧ init.manager_semaphore.count = 1 ∧
      init.safe_semaphore.count = 2) ∧
    (0 ≤ (run env sched).door_semaphore.count ∧ (run env sched).door_semaphore.count ≤ 2 ∧
      (countCustomers (run env sched) .inDoor : Int) = 2 - (run env sched).door_semaphore.count ∧
      countCustomers (run env sched) .inDoor ≤ 2) ∧
    (0 ≤ (run env sched).manager_semaphore.count ∧
      (run env sched).manager_semaphore.count ≤ 1 ∧
      (countTellers (run env sched) .inManager : Int) =
        1 - (run env sched).manager_semaphore.count ∧
      countTellers (run env sched) .inManager ≤ 1) ∧
    (0 ≤ (run env sched).safe_semaphore.count ∧ (run env sched).safe_semaphore.count ≤ 2 ∧
      (countTellers (run env sched) .inSafe : Int) = 2 - (run env sched).safe_semaphore.count ∧
      countTellers (run env sched) .inSafe ≤ 2) := by
  have h := counts_run env sched
  have h1 := h.door
  have h2 := h.manager
  have h3 := h.safe
  have h4 := h.door_nonneg
  have h5 := h.manager_nonneg
  have h6 := h.safe_nonneg
  refine ⟨⟨by decide, by decide, by decide⟩, ⟨h4, ?_, ?_, ?_⟩, ⟨h5, ?_, ?_, ?_⟩,
    ⟨h6, ?_, ?_, ?_⟩⟩ <;> omega

theorem bank_open_step (env : Env) (s : State) (w : Worker) (h : s.bank_open = true) :
    (step env s w).bank_open = true :=
  step_cases (fun s1 => s1.bank_open = true) env s w h (fun t _ => teller_thread_bank_open s t h)
    (fun c _ => (customer_thread_bank_open env s c).trans h)

theorem run_append_list (env : Env) (a b : List Worker) :
    run env (a ++ b) = b.foldl (step env) (run env a) := by
  simp [run, List.foldl_append]

theorem bank_open_foldl (env : Env) (more : List Worker) (s : State)
    (h : s.bank_open = true) : (more.foldl (step env) s).bank_open = true := by
  induction more generalizing s with
  | nil => exact h
  | cons w more ih => exact ih _ (bank_open_step env s w h)

theorem customer_at_barrier (env : Env) (s : State) (c : Nat)
    (hb : s.bank_open = false) (hpc : s.cpc c = .start ∨ s.cpc c = .waitOpen) :
    (step env s (.customer c)).cpc c = .start ∨ (step env s (.customer c)).cpc c = .waitOpen := by
  by_cases hsf : s.segfault = true
  · have e1 : step env s (.customer c) = s := by simp [step, hsf]
    rw [e1]; exact hpc
  · by_cases hc : c < NUM_CUSTOMERS
    · rw [step_customer env s c (by simpa using hsf) hc]
      unfold customer_thread
      rcases hpc with hpc | hpc
      · simp [hpc, setC]
      · simp [hpc, hb]
    · have e1 : step env s (.customer c) = s := by simp [step, hc]
      rw [e1]; exact hpc

/-! ### C7: the open barrier -/

/-- Counterexample to C7 as stated: when the last teller has incremented `teller_ready_count`
at line 113 and has not yet reached the assignment of line 116, `teller_ready_count` is
`NUM_TELLERS` and `bank_open` is false. -/
theorem C7_counterexample :
    (run sampleDraw lastIncrement).teller_ready_count = NUM_TELLERS ∧
      (run sampleDraw lastIncrement).bank_open = false ∧
      ¬ ((run sampleDraw lastIncrement).bank_open = true ↔
        (run sampleDraw lastIncrement).teller_ready_count = NUM_TELLERS) := by
  have h1 : (run sampleDraw lastIncrement).teller_ready_count = NUM_TELLERS := by decide!
  have h2 : (run sampleDraw lastIncrement).bank_open = false := by decide!
  refine ⟨h1, h2, fun h => ?_⟩
  have h3 := h.mpr h1
  rw [h2] at h3
  contradiction

/-- Claim C7, amended.  The open barrier is a one-shot latch.  In every reachable state:
when `bank_open` is true, `teller_ready_count` equals `NUM_TELLERS`; when
`teller_ready_count` equals `NUM_TELLERS` and no teller stands between its increment (line
113) and the end of its test (lines 115-117), `bank_open` is true; `teller_ready_count`
equals `NUM_TELLERS` exactly when every teller has done its increment, and never exceeds
`NUM_TELLERS`; once `bank_open` is true it is true after every further schedule; and while
`bank_open` is false every customer is at its first line or at the barrier wait, and a step
of a customer leaves it there. -/
theorem C7_open_barrier_amended (env : Env) (sched : List Worker) :
    ((run env sched).bank_open = true → (run env sched).teller_ready_count = NUM_TELLERS) ∧
    ((run env sched).teller_ready_count = NUM_TELLERS →
      (∀ t, t < NUM_TELLERS →
        (run env sched).tpc t ≠ .logReady ∧ (run env sched).tpc t ≠ .testOpen) →
      (run env sched).bank_open = true) ∧
    ((run env sched).teller_ready_count = NUM_TELLERS ↔
      ∀ t, t < NUM_TELLERS →
        (run env sched).tpc t ≠ .start ∧ (run env sched).tpc t ≠ .incReady) ∧
    (run env sched).teller_ready_count ≤ NUM_TELLERS ∧
    (∀ more, (run env sched).bank_open = true → (run env (sched ++ more)).bank_open = true) ∧
    (∀ c, (run env sched).bank_open = false →
      ((run env sched).cpc c = .start ∨ (run env sched).cpc c = .waitOpen) ∧
      ((step env (run env sched) (.customer c)).cpc c = .start ∨
        (step env (run env sched) (.customer c)).cpc c = .waitOpen)) := by
  have h := counts_run env sched
  have hb := basics_run env sched
  have hr := h.ready
  have z1 := count_eq_zero_iff TPC.start (run env sched).tpc NUM_TELLERS
  have z2 := count_eq_zero_iff TPC.incReady (run env sched).tpc NUM_TELLERS
  have z3 := count_eq_zero_iff TPC.logReady (run env sched).tpc NUM_TELLERS
  have z4 := count_eq_zero_iff TPC.testOpen (run env sched).tpc NUM_TELLERS
  unfold countTellers at hr
  refine ⟨fun ho => (h.opened.mp ho).1, ?_, ?_, by omega, ?_, ?_⟩
  · intro hcnt hno
    refine h.opened.mpr ⟨hcnt, ?_, ?_⟩
    · exact z3.mpr fun t ht => (hno t ht).1
    · exact z4.mpr fun t ht => (hno t ht).2
  · constructor
    · intro hcnt t ht
      have c1 : (List.range NUM_TELLERS).countP
          (fun j => decide ((run env sched).tpc j = TPC.start)) = 0 := by omega
      have c2 : (List.range NUM_TELLERS).countP
          (fun j => decide ((run env sched).tpc j = TPC.incReady)) = 0 := by omega
      exact ⟨z1.mp c1 t ht, z2.mp c2 t ht⟩
    · intro hall
      have c1 := z1.mpr fun t ht => (hall t ht).1
      have c2 := z2.mpr fun t ht => (hall t ht).2
      omega
  · intro more hopen
    rw [run_append_list]
    exact bank_open_foldl env more _ hopen
  · intro c hclosed
    have hpc : (run env sched).cpc c = .start ∨ (run env sched).cpc c = .waitOpen := by
      by_contra hne
      rw [not_or] at hne
      have := hb.barrier c hne.1 hne.2
      rw [hclosed] at this; contradiction
    exact ⟨hpc, customer_at_barrier env _ c hclosed hpc⟩

/-- Witness of the amended C7: after the three tellers have registered, `teller_ready_count` is
`NUM_TELLERS`, no teller is inside the block any more, and `bank_open` is true. -/
theorem C7_witness : (run sampleDraw openBank).bank_open = true :=
  (C7_open_barrier_amended sampleDraw openBank).2.1 (by decide!) (by decide!)

theorem served_all_done (s : State) (hcnt : Counts s)
    (h : (NUM_CUSTOMERS : Int) ≤ s.customers_served) :
    ∀ c, c < NUM_CUSTOMERS → s.cpc c = .done := by
  have h1 := hcnt.served
  unfold countCustomers at h1
  exact count_eq_range CPC.done s.cpc NUM_CUSTOMERS (by omega)

theorem all_done_served (s : State) (hcnt : Counts s)
    (h : ∀ c, c < NUM_CUSTOMERS → s.cpc c = .done) : s.customers_served = NUM_CUSTOMERS := by
  have h1 := hcnt.served
  unfold countCustomers at h1
  have h2 : (List.range NUM_CUSTOMERS).countP (fun c => decide (s.cpc c = .done)) =
      (List.range NUM_CUSTOMERS).length := by
    rw [List.countP_eq_length]
    intro c hc
    simpa using h c (List.mem_range.mp hc)
  rw [List.length_range] at h2
  omega

/-- A customer past the `teller_ready` wait was dequeued by exactly one teller, which also
wrote its map entry, once. -/
theorem pastReady_popped (env : Env) (sched : List Worker) (c : Nat)
    (h : ((run env sched).cpc c).pastReady = true) :
    ∃ t, t < NUM_TELLERS ∧ (run env sched).customer_teller_map c = some t ∧
      pops c (run env sched).trace = [t] ∧ mapWrites c (run env sched).trace = [t] := by
  have ha := (core_run env sched).assigned c (Or.inr h)
  obtain ⟨t, ht⟩ := Option.isSome_iff_exists.mp ha
  have hm := (hist_run env sched).mapped c t ht
  exact ⟨t, (basics_run env sched).map_bound c t ht, ht, hm.1, hm.2⟩

/-- Claim C2.  Every customer id is served exactly once.  In every reachable state
`customers_served ≤ NUM_CUSTOMERS` and every customer id has been dequeued at most once (the
list of tellers that dequeued it has at most one entry); in every state in which all tellers
and all customers have returned, `customers_served = NUM_CUSTOMERS` and every id below
`NUM_CUSTOMERS` was dequeued exactly once, by one teller. -/
theorem C2_served_exactly_once (env : Env) (sched : List Worker) :
    (run env sched).customers_served ≤ NUM_CUSTOMERS ∧
    (∀ c, (pops c (run env sched).trace).length ≤ 1) ∧
    (Terminated (run env sched) →
      (run env sched).customers_served = NUM_CUSTOMERS ∧
      ∀ c, c < NUM_CUSTOMERS → ∃ t, t < NUM_TELLERS ∧ pops c (run env sched).trace = [t]) := by
  have hcnt := counts_run env sched
  refine ⟨?_, (hist_run env sched).at_most_once, ?_⟩
  · have h1 := hcnt.served
    have h2 := count_le_range CPC.done (run env sched).cpc NUM_CUSTOMERS
    unfold countCustomers at h1
    omega
  · intro hterm
    refine ⟨all_done_served _ hcnt hterm.2, fun c hc => ?_⟩
    obtain ⟨t, h1, _, h3, _⟩ := pastReady_popped env sched c (by rw [hterm.2 c hc]; rfl)
    exact ⟨t, h1, h3⟩

/-- Witness of C2 on the schedule `serveAllAndClose`, which terminates: 50 customers served,
and customer 49 dequeued once. -/
theorem C2_witness :
    (run sampleDraw serveAllAndClose).customers_served = NUM_CUSTOMERS ∧
      ∃ t, t < NUM_TELLERS ∧ pops 49 (run sampleDraw serveAllAndClose).trace = [t] :=
  ⟨((C2_served_exactly_once sampleDraw serveAllAndClose).2.2 terminated_serveAllAndClose).1,
    ((C2_served_exactly_once sampleDraw serveAllAndClose).2.2 terminated_serveAllAndClose).2 49
      (by decide)⟩

theorem protocol_length (t c : Nat) : (protocol t c).length = 8 := rfl

theorem chooseType_cases (r : Nat) : chooseType r = "DEPOSIT" ∨ chooseType r = "WITHDRAWAL" := by
  unfold chooseType
  split_ifs
  · exact Or.inl rfl
  · exact Or.inr rfl

/-- Claim C4.  For every served customer the semaphore operations its teller performed for it
depend only on the transaction type: for `"WITHDRAWAL"` they are exactly acquire manager,
release manager, acquire safe, release safe; for `"DEPOSIT"` exactly acquire safe, release
safe.  So the manager is acquired once for a withdrawal and never for a deposit, and the safe
once for every customer.  The type is the one the customer drew at line 215, one of the two
strings.  Before a customer is dequeued no teller operation has been done for it. -/
theorem C4_service_gates (env : Env) (sched : List Worker) (c : Nat) :
    (serviceOps "WITHDRAWAL" =
        [.acquire .manager, .release .manager, .acquire .safe, .release .safe] ∧
      serviceOps "DEPOSIT" = [.acquire .safe, .release .safe]) ∧
    ((((run env sched).cpc c).pushed = false ∨ c ∈ (run env sched).customer_queue) →
      tellerGateOps c (run env sched).trace = []) ∧
    (((run env sched).cpc c).served = true →
      ((run env sched).transaction_type c = "DEPOSIT" ∨
        (run env sched).transaction_type c = "WITHDRAWAL") ∧
      (run env sched).transaction_type c = chooseType (env.type_dist c) ∧
      tellerGateOps c (run env sched).trace = serviceOps ((run env sched).transaction_type c) ∧
      (tellerGateOps c (run env sched).trace).count (.acquire .manager) =
        (if (run env sched).transaction_type c = "WITHDRAWAL" then 1 else 0) ∧
      (tellerGateOps c (run env sched).trace).count (.acquire .safe) = 1) := by
  have hh := hist_run env sched
  have hb := basics_run env sched
  refine ⟨⟨by decide, by decide⟩, fun h => (hh.not_popped c h).2, fun hs => ?_⟩
  have h5 : 5 ≤ hsCount ((run env sched).cpc c) ((run env sched).events c) := by
    revert hs
    cases (run env sched).cpc c <;> simp only [CPC.served, hsCount] <;> intro hs <;>
      first
      | contradiction
      | (split_ifs <;> omega)
      | omega
  have hne : (run env sched).cpc c ≠ .start := by
    intro e1; rw [e1] at hs; contradiction
  have hev : ((run env sched).cpc c).hasEvents = true := by
    revert hs
    cases (run env sched).cpc c <;> simp [CPC.served, CPC.hasEvents]
  have hty := hb.stored c hev
  have hch := hb.chosen c hne
  have hg := hh.gates_done c h5
  rw [hty] at hg
  have hcases := chooseType_cases (env.type_dist c)
  rw [← hch] at hcases
  refine ⟨hcases, hch, hg, ?_, ?_⟩
  · rw [hg]
    rcases hcases with h1 | h1 <;> rw [h1] <;> decide
  · rw [hg]
    rcases hcases with h1 | h1 <;> rw [h1] <;> decide

/-- Witness of C4: after the terminating schedule customer 1 (a withdrawal) has been
served. -/
theorem C4_witness :
    ((run sampleDraw serveAllAndClose).transaction_type 1 = "DEPOSIT" ∨
        (run sampleDraw serveAllAndClose).transaction_type 1 = "WITHDRAWAL") ∧
      (run sampleDraw serveAllAndClose).transaction_type 1 =
        chooseType (sampleDraw.type_dist 1) ∧
      tellerGateOps 1 (run sampleDraw serveAllAndClose).trace =
        serviceOps ((run sampleDraw serveAllAndClose).transaction_type 1) ∧
      (tellerGateOps 1 (run sampleDraw serveAllAndClose).trace).count (.acquire .manager) =
        (if (run sampleDraw serveAllAndClose).transaction_type 1 = "WITHDRAWAL"
          then 1 else 0) ∧
      (tellerGateOps 1 (run sampleDraw serveAllAndClose).trace).count (.acquire .safe) = 1 :=
  (C4_service_gates sampleDraw serveAllAndClose 1).2.2
    (by rw [terminated_serveAllAndClose.2 1 (by decide)]; rfl)

/-! ### C5: `Semaphore::release` -/

/-- Counterexample to C5 as stated: a semaphore constructed with count 2 and still at count 2
(so `0 ≤ a ≤ C`) has count 3 after `release()`. -/
theorem C5_release_exceeds :
    0 ≤ (Semaphore.mk_initial 2).count ∧ (Semaphore.mk_initial 2).count ≤ 2 ∧
      (Semaphore.mk_initial 2).release.count = 3 ∧ ¬ (Semaphore.mk_initial 2).release.count ≤ 2 := by
  decide

/-- Claim C5, amended.  For a semaphore constructed with an initial count `C` (an `int`) and a
count `a` with `0 ≤ a ≤ C` below `INT_MAX`, `release()` leaves the count `a + 1`; it does
not look at `C`.  So the count after `release()` is at most `C` exactly when the count before
was below `C`, and it is `C + 1` when the count before was `C`. -/
theorem C5_release_amended (C : Int) (s : Semaphore) (hC : INT_MIN ≤ C ∧ C ≤ INT_MAX)
    (h0 : 0 ≤ s.count) (hle : s.count ≤ C) (hmax : s.count < INT_MAX) :
    (Semaphore.mk_initial C).count = C ∧ s.release.count = s.count + 1 ∧
      (s.release.count ≤ C ↔ s.count < C) ∧ (s.count = C → s.release.count = C + 1) := by
  have h1 : (Semaphore.mk_initial C).count = C := wrapInt_of_range C hC.1 hC.2
  have h2 : s.release.count = s.count + 1 := by
    apply wrapInt_of_range
    · unfold INT_MIN; omega
    · omega
  refine ⟨h1, h2, ?_, ?_⟩
  · rw [h2]; omega
  · intro h3; rw [h2, h3]

/-- Witness of the amended C5: capacity 2, count 1. -/
theorem C5_witness :
    (Semaphore.mk_initial 2).count = 2 ∧ (Semaphore.mk 1).release.count = (Semaphore.mk 1).count + 1 ∧
      ((Semaphore.mk 1).release.count ≤ 2 ↔ (Semaphore.mk 1).count < 2) ∧
      ((Semaphore.mk 1).count = 2 → (Semaphore.mk 1).release.count = 2 + 1) :=
  C5_release_amended 2 (Semaphore.mk 1) (by decide) (by decide) (by decide) (by decide)

theorem queueRun_fifo (q : List Nat) (ops : List QueueOp) :
    (queueRun q ops).1 ++ (queueRun q ops).2 = q ++ pushedBy ops := by
  induction ops generalizing q with
  | nil => simp [queueRun, pushedBy]
  | cons op ops ih =>
    cases op with
    | push id =>
      simp only [queueRun, pushedBy, ih, queuePush, List.append_assoc, List.singleton_append]
    | pop =>
      cases q with
      | nil => simpa [queueRun, pushedBy, queuePop] using ih []
      | cons a l => simp [queueRun, pushedBy, queuePop, ih]

/-- Claim C6.  The customer queue is first-in first-out.  A push appends at the tail; a pop on a
non-empty queue returns the front and leaves the rest in order; a pop that finds the queue
empty returns no id and leaves the queue as it is.  Hence for every sequence of pushes and
pops on the initially empty queue, the ids returned by the pops followed by the ids still
queued are the pushed ids in push order, and the same holds for the pushes and pops of every
execution of the program. -/
theorem C6_queue_fifo :
    (∀ q id, queuePush q id = q ++ [id]) ∧
    (∀ id rest, queuePop (id :: rest) = (some id, rest)) ∧
    queuePop [] = (none, []) ∧
    (∀ ops, (queueRun [] ops).1 ++ (queueRun [] ops).2 = pushedBy ops) ∧
    (∀ env sched, poppedIds (run env sched).trace ++ (run env sched).customer_queue =
      pushedIds (run env sched).trace) := by
  refine ⟨fun _ _ => rfl, fun _ _ => rfl, rfl, fun ops => ?_, fun env sched => fifo_run env sched⟩
  simpa using queueRun_fifo [] ops

theorem teller_thread_exit (s : State) (t : Nat) (h0 : s.tpc t ≠ .exited)
    (h1 : (teller_thread s t).tpc t = .exited) :
    s.tpc t = .loopHead ∧ (NUM_CUSTOMERS : Int) ≤ s.customers_served := by
  revert h1
  unfold teller_thread
  split <;> try dsimp only
  all_goals try split_ifs
  all_goals try split
  all_goals
    rename_i heq
    simp_all [setT, updEvents]

theorem queue_empty_of_served (env : Env) (sched : List Worker)
    (h : (NUM_CUSTOMERS : Int) ≤ (run env sched).customers_served) :
    (run env sched).customer_queue = [] := by
  have hdone := served_all_done _ (counts_run env sched) h
  have hc := core_run env sched
  have hb := basics_run env sched
  rw [List.eq_nil_iff_forall_not_mem]
  intro c hcq
  have h1 := (hc.queue_mem c hcq).1
  have hlt : c < NUM_CUSTOMERS := by
    by_contra hge
    rw [hb.customer_bound c (by omega)] at h1
    contradiction
  rw [hdone c hlt] at h1
  contradiction

/-- Claim C8.  A teller leaves its service loop only when the queue is empty and
`customers_served` has reached `NUM_CUSTOMERS`: in every reachable state in which a step of
teller `t` takes it out of the loop, the teller is at the loop test, `customer_queue` is empty
and `customers_served ≥ NUM_CUSTOMERS`.  A teller whose bounded wait ends on the empty queue
while `customers_served < NUM_CUSTOMERS` (in a process that is alive) does not exit: the step
takes it back to the loop test with `customers_served` unchanged, and from there its next
step starts the wait again. -/
theorem C8_teller_exit (env : Env) (sched : List Worker) (t : Nat)
    (ht : t < NUM_TELLERS) :
    ((run env sched).tpc t ≠ .exited →
      (step env (run env sched) (.teller t)).tpc t = .exited →
      (run env sched).tpc t = .loopHead ∧ (run env sched).customer_queue = [] ∧
        (NUM_CUSTOMERS : Int) ≤ (run env sched).customers_served) ∧
    ((run env sched).segfault = false →
      (run env sched).tpc t = .waitQueue → (run env sched).customer_queue = [] →
      (run env sched).customers_served < NUM_CUSTOMERS →
      (step env (run env sched) (.teller t)).tpc t = .loopHead ∧
      (step env (run env sched) (.teller t)).customers_served =
        (run env sched).customers_served ∧
      (step env (run env sched) (.teller t)).customer_queue = [] ∧
      (step env (step env (run env sched) (.teller t)) (.teller t)).tpc t = .waitQueue) := by
  constructor
  · intro h0 h1
    cases hsf : (run env sched).segfault with
    | true =>
      simp only [step, hsf, if_true] at h1
      exact absurd h1 h0
    | false =>
      rw [step_teller env _ t hsf ht] at h1
      obtain ⟨h2, h3⟩ := teller_thread_exit _ t h0 h1
      exact ⟨h2, queue_empty_of_served env sched h3, h3⟩
  · intro hsf h0 h1 h2
    have e1 : step env (run env sched) (.teller t) =
        setT (run env sched) t .loopHead (locked (.teller t) .customer_queue_lock []) := by
      rw [step_teller env _ t hsf ht]
      unfold teller_thread
      simp [h0, h1, queuePop]
    rw [e1]
    refine ⟨by simp [setT], rfl, h1, ?_⟩
    rw [step_teller env _ t (by simpa [setT] using hsf) ht]
    unfold teller_thread
    have h3 : ¬ (run env sched).customers_served ≥ (NUM_CUSTOMERS : Int) := by omega
    simp [setT, h3]

/-- Witness of C8: after `serveAll`, teller 0 stands at the loop test and its next step leaves
the loop; after its registration and one loop test teller 0 waits on the empty queue with
nobody served, and its bounded wait ends without an exit. -/
theorem C8_witness :
    ((run sampleDraw serveAll).tpc 0 = .loopHead ∧
      (run sampleDraw serveAll).customer_queue = [] ∧
      (NUM_CUSTOMERS : Int) ≤ (run sampleDraw serveAll).customers_served) ∧
    ((step sampleDraw (run sampleDraw (register 0 ++ [.teller 0])) (.teller 0)).tpc 0 =
        .loopHead ∧
      (step sampleDraw (run sampleDraw (register 0 ++ [.teller 0])) (.teller 0)).customers_served =
        (run sampleDraw (register 0 ++ [.teller 0])).customers_served ∧
      (step sampleDraw (run sampleDraw (register 0 ++ [.teller 0])) (.teller 0)).customer_queue =
        [] ∧
      (step sampleDraw (step sampleDraw (run sampleDraw (register 0 ++ [.teller 0])) (.teller 0))
        (.teller 0)).tpc 0 = .waitQueue) := by
  have late := (C8_teller_exit sampleDraw serveAll 0 (by decide)).1 (by decide!) (by decide!)
  have early := (C8_teller_exit sampleDraw (register 0 ++ [.teller 0]) 0 (by decide)).2
  exact ⟨late, early (by decide!) (by decide!) (by decide!) (by decide!)⟩

/-- Claim C9.  The assignment record is written before it is read.  In every reachable state in
which customer `c` is about to read `customer_teller_map[c]` (the process being alive), the
map has an entry for `c`, written exactly once, and its value is the teller `t` that dequeued
`c` and is waiting for `transaction_given` from `c`; the read returns `t`, stores it in
`teller_id` and leaves the map as it is (no default entry is created). -/
theorem C9_map_written_before_read (env : Env) (sched : List Worker) (c : Nat)
    (hsf : (run env sched).segfault = false) (h : (run env sched).cpc c = .readMap) :
    ∃ t, t < NUM_TELLERS ∧ (run env sched).customer_teller_map c = some t ∧
      mapWrites c (run env sched).trace = [t] ∧ pops c (run env sched).trace = [t] ∧
      (run env sched).tpc t = .waitGiven ∧ (run env sched).customer_id t = c ∧
      mapRead (run env sched).customer_teller_map c = (t, (run env sched).customer_teller_map) ∧
      (step env (run env sched) (.customer c)).customer_teller_map =
        (run env sched).customer_teller_map ∧
      (step env (run env sched) (.customer c)).teller_id c = t := by
  have hc := core_run env sched
  have hh := hist_run env sched
  have hb := basics_run env sched
  obtain ⟨t, h1, h2, h3⟩ := hc.has_teller c (by simp [Engaged, h])
  have hT := hc.teller t h2
  rw [h3, h] at hT
  have hpc : (run env sched).tpc t = .waitGiven := by
    revert hT h2
    cases (run env sched).tpc t <;> simp [TellerOK, TPC.serving]
  have hm := hh.mapped c t h1
  have hread : mapRead (run env sched).customer_teller_map c =
      (t, (run env sched).customer_teller_map) := by
    unfold mapRead
    rw [h1]
  have hcn : c < NUM_CUSTOMERS := by
    by_contra hge
    rw [hb.customer_bound c (by omega)] at h
    contradiction
  have hstep : step env (run env sched) (.customer c) =
      setC { (run env sched) with
              customer_teller_map := (mapRead (run env sched).customer_teller_map c).2,
              teller_id := Function.update (run env sched).teller_id c
                (mapRead (run env sched).customer_teller_map c).1 }
        c .giveTransaction (locked (.customer c) .customer_map_lock
          [.map_read c (mapRead (run env sched).customer_teller_map c).1]) := by
    rw [step_customer env _ c hsf hcn]
    unfold customer_thread
    simp [h]
  refine ⟨t, hb.map_bound c t h1, h1, hm.2, hm.1, hpc, h3, hread, ?_, ?_⟩
  · rw [hstep, hread]; rfl
  · rw [hstep, hread]; simp [setC]

/-- Witness of C9: customer 0 reaches its read after teller 1 dequeued it. -/
theorem C9_witness :
    ∃ t, t < NUM_TELLERS ∧ (run sampleDraw untilReadMap).customer_teller_map 0 = some t ∧
      mapWrites 0 (run sampleDraw untilReadMap).trace = [t] ∧
      pops 0 (run sampleDraw untilReadMap).trace = [t] ∧
      (run sampleDraw untilReadMap).tpc t = .waitGiven ∧
      (run sampleDraw untilReadMap).customer_id t = 0 ∧
      mapRead (run sampleDraw untilReadMap).customer_teller_map 0 =
        (t, (run sampleDraw untilReadMap).customer_teller_map) ∧
      (step sampleDraw (run sampleDraw untilReadMap) (.customer 0)).customer_teller_map =
        (run sampleDraw untilReadMap).customer_teller_map ∧
      (step sampleDraw (run sampleDraw untilReadMap) (.customer 0)).teller_id 0 = t :=
  C9_map_written_before_read sampleDraw untilReadMap 0 (by decide!) (by decide!)

/-! ### C10: lock discipline -/

/-- Counterexample to C10 as stated: in the block of lines 111-118 teller 0 takes
`teller_ready_lock` and, inside `print_log` at line 114, takes `print_lock` while still
holding it. -/
theorem C10_counterexample :
    lockOps (.teller 0) (run sampleDraw (register 0)).trace =
      [.acquire (.mutex .teller_ready_lock), .acquire (.mutex .print_lock),
        .release (.mutex .print_lock), .release (.mutex .teller_ready_lock)] ∧
    held [.acquire (.mutex .teller_ready_lock)] = [.mutex .teller_ready_lock] ∧
    ¬ SingleResource (lockOps (.teller 0) (run sampleDraw (register 0)).trace) := by
  have h1 : lockOps (.teller 0) (run sampleDraw (register 0)).trace =
      [.acquire (.mutex .teller_ready_lock), .acquire (.mutex .print_lock),
        .release (.mutex .print_lock), .release (.mutex .teller_ready_lock)] := by decide!
  refine ⟨h1, rfl, ?_⟩
  intro hs
  have := hs [.acquire (.mutex .teller_ready_lock)] (.mutex .print_lock)
    [.release (.mutex .print_lock), .release (.mutex .teller_ready_lock)] h1
  simp [held, heldAfter] at this

/-- Claim C10, amended.  In the sequence of lock and semaphore operations of every teller and
every customer, a mutex other than `print_lock` and every semaphore is acquired while the
worker holds no mutex and no semaphore; `print_lock` (taken inside `print_log`) is acquired
while the worker holds nothing, or only `teller_ready_lock`, or only one unit of one
semaphore. -/
theorem C10_discipline_amended (env : Env) (sched : List Worker) (w : Worker) :
    SingleResourceExceptLog (lockOps w (run env sched).trace) :=
  lockRun_discipline _ _ (locks_run env sched w)

/-- Witness of the amended C10: at line 114 teller 0 takes `print_lock` while it holds
`teller_ready_lock` and nothing else. -/
theorem C10_witness :
    held [.acquire (.mutex .teller_ready_lock)] = [] ∨
      held [.acquire (.mutex .teller_ready_lock)] = [.mutex .teller_ready_lock] ∨
      ∃ g, held [.acquire (.mutex .teller_ready_lock)] = [.sem g] :=
  (C10_discipline_amended sampleDraw (register 0) (.teller 0)
    [.acquire (.mutex .teller_ready_lock)] (.mutex .print_lock)
    [.release (.mutex .print_lock), .release (.mutex .teller_ready_lock)] (by decide!)).2 rfl

end Bank
